import Mathlib

/-!
Verification of the barker_final import/reconciliation frontend
(`src/frontend/src/App.tsx`) against its natural-language specification.

JavaScript strings are embedded as `List Char`; JavaScript numbers are
embedded as `ℚ` (with `Option ℚ` where a value can be `null`/`undefined`
or non-finite — the code under scrutiny only distinguishes finite values
from the collapsed `NaN`/`Infinity` class via `Number.isFinite`).
-/

set_option maxRecDepth 8000

namespace Barker

abbrev Str := List Char

/-- The ASCII whitespace characters relevant to `String.prototype.trim`
(the inputs handled here contain no exotic Unicode whitespace). -/
def isJsWsChar (c : Char) : Bool :=
  decide (c.toNat = 9 ∨ c.toNat = 10 ∨ c.toNat = 11 ∨ c.toNat = 12 ∨
    c.toNat = 13 ∨ c.toNat = 32)

/-- JavaScript `String.prototype.trim` (ASCII whitespace). -/
def trimStr (s : Str) : Str :=
  ((s.dropWhile (isJsWsChar ·)).reverse.dropWhile (isJsWsChar ·)).reverse

/-- JavaScript `toUpperCase` on one ASCII character. -/
def jsToUpperChar (c : Char) : Char :=
  if 97 ≤ c.toNat ∧ c.toNat ≤ 122 then Char.ofNat (c.toNat - 32) else c

/-- JavaScript `toLowerCase` on one ASCII character. -/
def jsToLowerChar (c : Char) : Char :=
  if 65 ≤ c.toNat ∧ c.toNat ≤ 90 then Char.ofNat (c.toNat + 32) else c

def jsToUpper (s : Str) : Str := s.map jsToUpperChar

def jsToLower (s : Str) : Str := s.map jsToLowerChar

/-- Character class `[0-9]` (regex `\d`). -/
def isDigitChar (c : Char) : Bool := decide (48 ≤ c.toNat ∧ c.toNat ≤ 57)

/-- Character class `[A-Z0-9]` (applied to upper-cased input). -/
def isUpperAlnumChar (c : Char) : Bool :=
  decide ((65 ≤ c.toNat ∧ c.toNat ≤ 90) ∨ (48 ≤ c.toNat ∧ c.toNat ≤ 57))

/-- Regex word character `[A-Za-z0-9_]`, for `\b` boundaries. -/
def isWordChar (c : Char) : Bool :=
  decide ((65 ≤ c.toNat ∧ c.toNat ≤ 90) ∨ (97 ≤ c.toNat ∧ c.toNat ≤ 122) ∨
    (48 ≤ c.toNat ∧ c.toNat ≤ 57) ∨ c.toNat = 95)

/-- One decimal digit as a character (only 0–9 are ever produced). -/
def natToDigitChar (d : ℕ) : Char :=
  if d = 0 then '0' else if d = 1 then '1' else if d = 2 then '2'
  else if d = 3 then '3' else if d = 4 then '4' else if d = 5 then '5'
  else if d = 6 then '6' else if d = 7 then '7' else if d = 8 then '8'
  else if d = 9 then '9' else '*'

/-- Little-endian base-10 digits, by structural recursion on a fuel bound
(so that it reduces inside the kernel; see `natDigitsLE_eq_digits`). -/
def natDigitsAux : ℕ → ℕ → List ℕ
  | 0, _ => []
  | _ + 1, 0 => []
  | fuel + 1, n + 1 => (n + 1) % 10 :: natDigitsAux fuel ((n + 1) / 10)

/-- Little-endian base-10 digits of a natural number. -/
def natDigitsLE (n : ℕ) : List ℕ := natDigitsAux n n

/-- Decimal representation of a natural number (`Number.prototype.toString`). -/
def natToChars (n : ℕ) : Str :=
  if n = 0 then ['0'] else (natDigitsLE n).reverse.map natToDigitChar

/-- Decimal representation of an integer (`Number.prototype.toString`). -/
def intToChars (z : ℤ) : Str :=
  if z < 0 then '-' :: natToChars z.natAbs else natToChars z.toNat

/-- JavaScript `String.prototype.padStart(width, c)`. -/
def padStart (width : ℕ) (c : Char) (s : Str) : Str :=
  List.replicate (width - s.length) c ++ s

/-- Numeric value of a string of decimal digit characters. -/
def digitsToNat (s : Str) : ℕ :=
  Nat.ofDigits 10 ((s.map fun c => c.toNat - 48).reverse)

/-- JavaScript `Math.round`: round half toward positive infinity. -/
def jsRound (q : ℚ) : ℤ := ⌊q + 1 / 2⌋

/-- Result record of `parseOsiSymbol` in `App.tsx`. -/
structure OsiParsed where
  underlying : Str
  expiry : Str
  option_type : Str
  strike : ℚ
deriving DecidableEq, Repr

/-- Embedding of `parseOsiSymbol` (App.tsx:70–82).  The source matches
`^([A-Z0-9]{1,6})(\d{6})([CP])(\d{8})$` against the trimmed, upper-cased
input.  Groups 2–4 have fixed total width 15, so any successful match
forces group 1 to take exactly `length - 15` characters; the regex is
therefore equivalent to the fixed-split check below. -/
def parseOsiSymbol (symbol : Str) : Option OsiParsed :=
  let s := jsToUpper (trimStr symbol)
  let n := s.length
  if 16 ≤ n ∧ n ≤ 21 then
    let u := s.take (n - 15)
    let date := (s.drop (n - 15)).take 6
    let rc := ((s.drop (n - 15)).drop 6).take 1
    let strikeCs := ((s.drop (n - 15)).drop 6).drop 1
    if u.all isUpperAlnumChar ∧ date.all isDigitChar ∧
        (rc = ['C'] ∨ rc = ['P']) ∧ strikeCs.all isDigitChar then
      some { underlying := u
             expiry := ['2', '0'] ++ date.take 2 ++ ['-'] ++
               (date.drop 2).take 2 ++ ['-'] ++ date.drop 4
             option_type := if rc = ['C'] then "CALL".data else "PUT".data
             strike := (digitsToNat strikeCs : ℚ) / 1000 }
    else none
  else none

/-- Embedding of `buildOsiSymbol` (App.tsx:84–95).  The `strike` argument is `Option ℚ`:
`none` models a non-finite JavaScript number (`Number.isFinite` fails). -/
def buildOsiSymbol (underlying expiry right : Str) (strike : Option ℚ) : Str :=
  let u := jsToUpper (trimStr underlying)
  let exp := trimStr expiry
  if u = [] ∨ exp = [] ∨ right = [] ∨ strike = none then []
  else
    let ymd := (exp.filter fun c => c ≠ '-').drop 2
    if ymd.length ≠ 6 then []
    else
      let strikeInt := padStart 8 '0' (intToChars (jsRound (strike.getD 0 * 1000)))
      let r := if jsToUpper right = ['P'] then 'P' else 'C'
      u ++ ymd ++ [r] ++ strikeInt

/-! Strategy netting and rollup (`positionsDisplay`, App.tsx:537–638) -/

/-- A position row as consumed by the `positionsDisplay` memo.  Numeric
fields are `Option ℚ` (`none` = null/undefined, which the code coalesces
with `||`/`??`); string fields collapse null to the empty list, which is
lossless because every use first applies `|| ""` or a truthiness test. -/
structure PositionRow where
  symbol : Str
  asset_class : Str
  qty : Option ℚ
  price : Option ℚ
  avg_cost : Option ℚ
  multiplier : Option ℚ
  market_value : Option ℚ
  total_pnl : Option ℚ
  day_pnl : Option ℚ
  strategy_id : Str
  strategy : Str
  strategy_name : Str
deriving DecidableEq, Repr

/-- JavaScript `Number(v || 0)` on a nullable numeric field. -/
def jsNum (v : Option ℚ) : ℚ := v.getD 0

/-- JavaScript `a || b` on strings (empty string is falsy). -/
def jsStrOr (a b : Str) : Str := if a = [] then b else a

/-- Embedding of `row.strategy_id || (row.strategy ? String(row.strategy) : "")`. -/
def strategyIdOf (r : PositionRow) : Str := jsStrOr r.strategy_id r.strategy

/-- A row participates in strategy grouping when its asset class
lower-cases to "option" and it carries a non-empty strategy id
(App.tsx:549–551). -/
def isGroupedLeg (r : PositionRow) : Option Str :=
  if jsToLower r.asset_class = "option".data ∧ strategyIdOf r ≠ [] then
    some (strategyIdOf r)
  else none

/-- The legs the grouping map accumulates for one strategy id: all grouped
rows of the (already strategy-filtered) list with that id, in encounter
order — the `Map` in the source pushes them in exactly this order. -/
def legsOf (rows : List PositionRow) (g : Str) : List PositionRow :=
  rows.filter fun r => decide (isGroupedLeg r = some g)

/-- Embedding of `avg = Number(leg.avg_cost ?? leg.price ?? 0)` (nullish coalescing:
a present zero is kept). -/
def avgOf (l : PositionRow) : ℚ :=
  match l.avg_cost with
  | some a => a
  | none => match l.price with
    | some p => p
    | none => 0

/-- Embedding of `price = rawPrice > 0 ? rawPrice : avg > 0 ? avg : 0`. -/
def effPriceOf (l : PositionRow) : ℚ :=
  let rawPrice := jsNum l.price
  if 0 < rawPrice then rawPrice else if 0 < avgOf l then avgOf l else 0

/-- Embedding of `Number(leg.multiplier || baseMultiplier) || baseMultiplier`. -/
def multOf (base : ℚ) (l : PositionRow) : ℚ :=
  let m := match l.multiplier with
    | some m => if m = 0 then base else m
    | none => base
  if m = 0 then base else m

/-- Embedding of `Number(legs[0]?.multiplier || 100) || 100`. -/
def baseMultiplierOf (legs : List PositionRow) : ℚ :=
  let m := match legs.head? with
    | some l0 => (match l0.multiplier with
      | some m => if m = 0 then (100 : ℚ) else m
      | none => 100)
    | none => 100
  if m = 0 then 100 else m

/-- The `units` computation: the minimum of |quantity| over legs with a positive absolute
quantity.  `none` models the JavaScript `Math.min()` of an empty spread,
which is `Infinity`; since both a positive minimum and `Infinity` are
truthy, the source's `|| fallback || 1` chain after `Math.min` is
unreachable. -/
def unitsOf (legs : List PositionRow) : Option ℚ :=
  ((legs.map fun l => |jsNum l.qty|).filter fun v => decide (0 < v)).min?

/-- Net notional value `Σ qty × price × multiplier` (App.tsx:589). -/
def netNotionalOf (legs : List PositionRow) : ℚ :=
  (legs.map fun l =>
    jsNum l.qty * effPriceOf l * multOf (baseMultiplierOf legs) l).sum

/-- Net average-cost notional `Σ qty × avg_cost × multiplier`. -/
def netAvgNotionalOf (legs : List PositionRow) : ℚ :=
  (legs.map fun l =>
    jsNum l.qty * avgOf l * multOf (baseMultiplierOf legs) l).sum

/-- The synthetic summary row for one strategy group (App.tsx:573–624).
`base` records `legs[0]`, whose remaining fields the source spreads into
the summary object. -/
structure StrategySummary where
  base : PositionRow
  symbol : Str
  qty : Option ℚ
  price : ℚ
  avg_cost : ℚ
  market_value : ℚ
  total_pnl : ℚ
  day_pnl : ℚ
  total_pnl_pct : ℚ
  day_pnl_pct : ℚ
  position_side : Str
  strategy_id : Str
  strategy_name : Str
  legCount : ℕ
deriving DecidableEq, Repr

/-- Aggregation of one strategy group; `l0` is `legs[0]` (the caller
guarantees `legs = l0 :: _`).  The `units = Infinity` case (no leg with a
nonzero quantity) makes all the divisions by `units` collapse to zero in
JavaScript, which the `none` branch mirrors. -/
def buildSummary (strategyId : Str) (l0 : PositionRow)
    (legs : List PositionRow) : StrategySummary :=
  let units? := unitsOf legs
  let netValue := netNotionalOf legs
  let netAvgValue := netAvgNotionalOf legs
  let netMv := (legs.map fun l => jsNum l.market_value).sum
  let netPnl := (legs.map fun l => jsNum l.total_pnl).sum
  let netDay := (legs.map fun l => jsNum l.day_pnl).sum
  let base := baseMultiplierOf legs
  let netPrice := match units? with
    | some u => netValue / (u * base)
    | none => 0
  let netAvgCost := match units? with
    | some u => netAvgValue / (u * base)
    | none => 0
  let pctDenom := match units? with
    | some u => if 0 < |netAvgCost| then |netAvgCost| * u * base else 0
    | none => 0
  let totalPnlPct := if pctDenom ≠ 0 then netPnl / pctDenom * 100 else 0
  let dayPnlPct := if pctDenom ≠ 0 then netDay / pctDenom * 100 else 0
  let strategyName :=
    jsStrOr l0.strategy_name (jsStrOr l0.strategy
      ("Strategy ".data ++ strategyId.take 6))
  { base := l0
    symbol := strategyName
    qty := units?
    price := netPrice
    avg_cost := netAvgCost
    market_value := netMv
    total_pnl := netPnl
    day_pnl := netDay
    total_pnl_pct := totalPnlPct
    day_pnl_pct := dayPnlPct
    position_side := if netValue < 0 then "SHORT".data else "LONG".data
    strategy_id := strategyId
    strategy_name := strategyName
    legCount := legs.length }

/-- One row of the display list: a pass-through row, a synthetic strategy
summary, or a tagged strategy leg. -/
inductive DisplayRow where
  | plain (row : PositionRow)
  | summary (s : StrategySummary)
  | leg (row : PositionRow) (strategy_id strategy_name : Str)
deriving DecidableEq, Repr

/-- JavaScript `s.startsWith(sub)`: `startsWithStr sub s` is true when `s` begins
with `sub`. -/
def startsWithStr : Str → Str → Bool
  | [], _ => true
  | _ :: _, [] => false
  | a :: t, b :: u => a == b && startsWithStr t u

/-- JavaScript `String.prototype.includes`: contiguous-substring test. -/
def strIncludes : Str → Str → Bool
  | [], sub => startsWithStr sub []
  | s@(_ :: t), sub => startsWithStr sub s || strIncludes t sub

/-- The strategy-filter predicate (App.tsx:540–543). -/
def strategyFilterKeep (fil : Str) (r : PositionRow) : Bool :=
  strIncludes (jsToLower (jsStrOr r.strategy_name (jsStrOr r.strategy [])))
    (jsToLower fil)

/-- Embedding of `strategyFilter ? positions.filter(...) : positions`. -/
def filteredPositions (fil : Str) (positions : List PositionRow) :
    List PositionRow :=
  if fil = [] then positions else positions.filter (strategyFilterKeep fil)

/-- The `order` list built in the first pass (App.tsx:546–559): one `row`
entry per non-grouped row, and one `group` marker per strategy id at the
position of its first leg. -/
def orderEntries : List PositionRow → List Str → List (PositionRow ⊕ Str)
  | [], _ => []
  | r :: rest, seen =>
    match isGroupedLeg r with
    | some g =>
      if g ∈ seen then orderEntries rest seen
      else Sum.inr g :: orderEntries rest (g :: seen)
    | none => Sum.inl r :: orderEntries rest seen

/-- Expansion of one `order` entry in the output pass (App.tsx:562–636). -/
def expandEntry (rows : List PositionRow) (collapsed : Str → Bool) :
    PositionRow ⊕ Str → List DisplayRow
  | Sum.inl r => [DisplayRow.plain r]
  | Sum.inr g =>
    let legs := legsOf rows g
    if legs.length < 2 then legs.map DisplayRow.plain
    else
      match legs with
      | [] => []
      | l0 :: _ =>
        DisplayRow.summary (buildSummary g l0 legs) ::
          (if collapsed g then []
           else legs.map fun l =>
             DisplayRow.leg l g (buildSummary g l0 legs).strategy_name)

/-- The `positionsDisplay` memo (App.tsx:537–638): strategy filter, then
grouping of option rows by strategy id, then per-entry expansion. -/
def positionsDisplay (positions : List PositionRow)
    (collapsed : Str → Bool) (strategyFilter : Str) : List DisplayRow :=
  if positions = [] then []
  else
    let filtered := filteredPositions strategyFilter positions
    if filtered = [] then []
    else (orderEntries filtered []).flatMap (expandEntry filtered collapsed)

/-- Example leg for the C3 witness: BUY 1 option at price 5. -/
def exLegBuy : PositionRow :=
  { symbol := "L1".data, asset_class := "OPTION".data, qty := some 1,
    price := some 5, avg_cost := none, multiplier := some 100,
    market_value := none, total_pnl := none, day_pnl := none,
    strategy_id := "G".data, strategy := [], strategy_name := [] }

/-- Example leg for the C3 witness: SELL 1 option at price 2. -/
def exLegSell : PositionRow :=
  { symbol := "L2".data, asset_class := "OPTION".data, qty := some (-1),
    price := some 2, avg_cost := none, multiplier := some 100,
    market_value := none, total_pnl := none, day_pnl := none,
    strategy_id := "G".data, strategy := [], strategy_name := [] }

/-! CSV parsing and tolerant normalizers (App.tsx:1362–1434, 97–116) -/

/-- The character loop of `parseCsvRows` (App.tsx:1362–1400): quoted
fields (with `""` escapes), comma separation, newline/CRLF row breaks,
blank rows dropped.  The first argument is a fuel bound for structural
recursion; every step consumes at least one input character, so starting
the fuel at the input length makes the fuel-exhaustion case
unreachable. -/
def parseCsvRowsAux : ℕ → Str → Bool → Str → List Str → List (List Str) →
    List (List Str)
  | _, [], _, current, row, rows =>
    if current ≠ [] ∨ row ≠ [] then
      let row2 := row ++ [current]
      if row2.any fun cell => trimStr cell ≠ [] then rows ++ [row2] else rows
    else rows
  | 0, _ :: _, _, _, _, rows => rows
  | fuel + 1, c :: rest, true, current, row, rows =>
    if c = '"' then
      match rest with
      | '"' :: rest2 =>
        parseCsvRowsAux fuel rest2 true (current ++ ['"']) row rows
      | _ => parseCsvRowsAux fuel rest false current row rows
    else parseCsvRowsAux fuel rest true (current ++ [c]) row rows
  | fuel + 1, c :: rest, false, current, row, rows =>
    if c = '"' then parseCsvRowsAux fuel rest true current row rows
    else if c = ',' then
      parseCsvRowsAux fuel rest false [] (row ++ [current]) rows
    else if c = '\r' then
      let row2 := row ++ [current]
      let rows2 := if row2.any fun cell => trimStr cell ≠ [] then
        rows ++ [row2] else rows
      match rest with
      | '\n' :: rest2 => parseCsvRowsAux fuel rest2 false [] [] rows2
      | _ => parseCsvRowsAux fuel rest false [] [] rows2
    else if c = '\n' then
      let row2 := row ++ [current]
      let rows2 := if row2.any fun cell => trimStr cell ≠ [] then
        rows ++ [row2] else rows
      parseCsvRowsAux fuel rest false [] [] rows2
    else parseCsvRowsAux fuel rest false (current ++ [c]) row rows

/-- Embedding of `parseCsvRows` (App.tsx:1362–1400). -/
def parseCsvRows (text : Str) : List (List Str) :=
  parseCsvRowsAux text.length text false [] [] []

/-- JavaScript object assignment `obj[k] = v`: keeps first-insertion key
order, overwrites the value of an existing key. -/
def objSet : List (Str × Str) → Str → Str → List (Str × Str)
  | [], k, v => [(k, v)]
  | (k1, v1) :: t, k, v =>
    if k1 = k then (k1, v) :: t else (k1, v1) :: objSet t k v

/-- JavaScript object read `obj[k]` (`none` = property absent). -/
def objGet (obj : List (Str × Str)) (k : Str) : Option Str :=
  (obj.find? fun p => decide (p.1 = k)).map fun p => p.2

/-- One record of `parseCsv` (App.tsx:1407–1413):
`header.forEach((key, idx) => data[key] = cols[idx] ?? "")`. -/
def csvRecordOf (header : List Str) (cols : List Str) : List (Str × Str) :=
  header.foldl (fun st k => (objSet st.1 k (cols.getD st.2 []), st.2 + 1))
    ([], 0) |>.1

/-- Embedding of `parseCsv` (App.tsx:1402–1414). -/
def parseCsv (text : Str) : List (List (Str × Str)) :=
  let rows := parseCsvRows text
  if rows = [] then []
  else
    let header := rows.headD [] |>.map trimStr
    (rows.drop 1).map (csvRecordOf header)

/-- Embedding of `stripBom` (App.tsx:1416): removes one leading U+FEFF. -/
def stripBom (s : Str) : Str :=
  match s with
  | c :: t => if c.toNat = 0xFEFF then t else s
  | [] => []

/-- Character class `[a-z0-9]` (after lower-casing). -/
def isLowerAlnumChar (c : Char) : Bool :=
  decide ((97 ≤ c.toNat ∧ c.toNat ≤ 122) ∨ (48 ≤ c.toNat ∧ c.toNat ≤ 57))

/-- Embedding of `replace(/[^a-z0-9]+/g, "_")`: each maximal run of other characters
becomes one underscore (the flag tracks being inside such a run). -/
def collapseRunsAux : Str → Bool → Str
  | [], _ => []
  | c :: t, inRun =>
    if isLowerAlnumChar c then c :: collapseRunsAux t false
    else if inRun then collapseRunsAux t true
    else '_' :: collapseRunsAux t true

/-- Embedding of `replace(/^_+|_+$/g, "")`. -/
def stripEdgeUnderscores (s : Str) : Str :=
  ((s.dropWhile fun c => c = '_').reverse.dropWhile fun c => c = '_').reverse

/-- Embedding of `normalizeHeader` (App.tsx:1418–1423). -/
def normalizeHeader (k : Str) : Str :=
  stripEdgeUnderscores (collapseRunsAux (trimStr (jsToLower (stripBom k))) false)

/-- Value of a non-empty digit string as a natural number, little helper
for `jsStrToNum`. -/
def decDigitsVal (ds : Str) : ℕ :=
  ds.foldl (fun acc c => acc * 10 + (c.toNat - 48)) 0

/-- JavaScript `Number(string)` restricted to the forms that occur in the
imports handled here: optional sign, decimal mantissa (`5`, `5.`, `.5`,
`5.25`), optional exponent, `Infinity` spellings, empty/whitespace → 0.
`none` is the collapsed non-finite class (`NaN`/`±Infinity`) — the code
under scrutiny only ever tests it with `Number.isFinite`.  Hex, octal and
binary literal prefixes are not modeled (they would be `none` here). -/
def jsStrToNum (s : Str) : Option ℚ :=
  let t := trimStr s
  if t = [] then some 0
  else if t = "Infinity".data ∨ t = "+Infinity".data ∨ t = "-Infinity".data
  then none
  else
    let signBody : Bool × Str := match t with
      | '-' :: r => (true, r)
      | '+' :: r => (false, r)
      | _ => (false, t)
    let body := signBody.2
    let intPart := body.takeWhile isDigitChar
    let rest1 := body.dropWhile isDigitChar
    let fracRest : Str × Str := match rest1 with
      | '.' :: r => (r.takeWhile isDigitChar, r.dropWhile isDigitChar)
      | _ => ([], rest1)
    let fracPart := fracRest.1
    let rest2 := if rest1.headD ' ' = '.' then fracRest.2 else rest1
    if intPart = [] ∧ fracPart = [] then none
    else
      let mant : ℚ := (decDigitsVal intPart : ℚ) +
        (decDigitsVal fracPart : ℚ) / (10 : ℚ) ^ fracPart.length
    let expVal : Option ℚ := match rest2 with
      | [] => some mant
      | e :: r =>
        if e = 'e' ∨ e = 'E' then
          let signDigits : Bool × Str := match r with
            | '-' :: r2 => (true, r2)
            | '+' :: r2 => (false, r2)
            | _ => (false, r)
          let ds := signDigits.2
          if ds ≠ [] ∧ ds.all isDigitChar then
            some (if signDigits.1 then mant / (10 : ℚ) ^ decDigitsVal ds
              else mant * (10 : ℚ) ^ decDigitsVal ds)
          else none
        else none
    match expVal with
    | none => none
    | some v => some (if signBody.1 then -v else v)

/-- Line-break characters excluded by the regex `.` (no `s` flag). -/
def isLineBreakChar (c : Char) : Bool :=
  decide (c.toNat = 10 ∨ c.toNat = 13 ∨ c.toNat = 0x2028 ∨ c.toNat = 0x2029)

/-- The test `/^\(.*\)$/.test(trimmed)`: wrapped in parentheses, with no line
break between them. -/
def parenWrapped (t : Str) : Bool :=
  match t with
  | '(' :: rest =>
    rest ≠ [] ∧ rest.getLast? = some ')' ∧
      rest.dropLast.all fun c => ¬ isLineBreakChar c
  | _ => false

/-- Embedding of `parseNumber` (App.tsx:1425–1434): `none` = NaN. -/
def parseNumber (raw : Str) : Option ℚ :=
  if raw = [] then none
  else
    let trimmed := trimStr raw
    if trimmed = [] then none
    else
      let negative := parenWrapped trimmed
      let cleaned := (trimmed.filter fun c =>
          ¬ (c = ',' ∨ c = '$' ∨ c = '%')).filter fun c =>
          ¬ (c = '(' ∨ c = ')')
      match jsStrToNum cleaned with
      | none => none
      | some v => some (if negative then -v else v)

/-- The `^\d{4}-\d{2}-\d{2}$` shape test. -/
def isIsoDateShape (s : Str) : Bool :=
  match s with
  | [a, b, c, d, '-', e, f, '-', g, h] =>
    [a, b, c, d, e, f, g, h].all isDigitChar
  | _ => false

/-- Embedding of `normalizeExpiryInput` (App.tsx:97–110).  The five anchored patterns
are mutually exclusive fixed shapes, so the source's cascade is a shape
match. -/
def normalizeExpiryInput (value : Str) : Str :=
  let raw := trimStr value
  if raw = [] then []
  else if isIsoDateShape raw then raw
  else
    match raw with
    | [a, b, '-', c, d, '-', e, f, g, h] =>
      if [a, b, c, d, e, f, g, h].all isDigitChar then
        [e, f, g, h, '-', a, b, '-', c, d]
      else raw
    | [a, b, '-', c, d, '-', e, f] =>
      if [a, b, c, d, e, f].all isDigitChar then
        ['2', '0', e, f, '-', a, b, '-', c, d]
      else raw
    | [a, b, '/', c, d, '/', e, f, g, h] =>
      if [a, b, c, d, e, f, g, h].all isDigitChar then
        [e, f, g, h, '-', a, b, '-', c, d]
      else raw
    | [a, b, '/', c, d, '/', e, f] =>
      if [a, b, c, d, e, f].all isDigitChar then
        ['2', '0', e, f, '-', a, b, '-', c, d]
      else raw
    | _ => raw

/-- Month-code character class of `isFutureSymbol`. -/
def isMonthCodeChar (c : Char) : Bool :=
  decide (c ∈ ['F', 'G', 'H', 'J', 'K', 'M', 'N', 'Q', 'U', 'V', 'X', 'Z'])

/-- Embedding of `isFutureSymbol` (App.tsx:112–116):
`^[A-Z0-9]{1,4}[FGHJKMNQUVXZ][0-9]{2}$` — the suffix has fixed width 3,
so a match forces the leading group to `length − 3` characters. -/
def isFutureSymbol (value : Str) : Bool :=
  let s := jsToUpper (trimStr value)
  if s = [] then false
  else
    decide (4 ≤ s.length ∧ s.length ≤ 7) &&
    (s.take (s.length - 3)).all isUpperAlnumChar &&
    (match s.drop (s.length - 3) with
     | [mc, x, y] => isMonthCodeChar mc && isDigitChar x && isDigitChar y
     | _ => false)

/-! A small backtracking regex engine

`parseOptionDescription` (App.tsx:1436–1530) matches four anchored
JavaScript regular expressions.  The engine below reproduces JavaScript
semantics for the constructs those patterns use: ordered alternation,
greedy `*`/`+`/`?`/bounded repetition (longest-first with backtracking),
capturing groups, and the `\b` word boundary.  `reMatches` enumerates the
ways a pattern can match a prefix of the input in backtracking priority
order, so the head of the list is exactly the match JavaScript commits
to. -/

inductive RE where
  | eps
  | cls (p : Char → Bool)
  | seq (a b : RE)
  | alt (a b : RE)
  | star (r : RE)
  | group (i : ℕ) (r : RE)
  | wordB

def reSize : RE → ℕ
  | .eps => 1
  | .cls _ => 1
  | .seq a b => reSize a + reSize b + 1
  | .alt a b => reSize a + reSize b + 1
  | .star r => reSize r + 1
  | .group _ r => reSize r + 1
  | .wordB => 1

/-- Captured groups: index ↦ consumed substring. -/
abbrev Caps := List (ℕ × Str)

/-- One partial-match outcome: last consumed character (for `\b`),
remaining input, captures so far. -/
abbrev ReOutcome := Option Char × Str × Caps

/-- All prefix matches in backtracking priority order.  The fuel argument
makes the recursion structural; every recursive call strictly decreases
the measure `|input| * (reSize r₀ + 1) + reSize r` (sub-patterns shrink
`reSize`, star iterations consume input), so a fuel of
`(reSize r + 1) * (|input| + 2)` can never run out. -/
def reMatches : ℕ → RE → Option Char → Str → Caps → List ReOutcome
  | 0, _, _, _, _ => []
  | fuel + 1, re, prev, s, caps =>
    match re with
    | .eps => [(prev, s, caps)]
    | .cls p =>
      match s with
      | c :: rest => if p c then [(some c, rest, caps)] else []
      | [] => []
    | .seq a b =>
      (reMatches fuel a prev s caps).flatMap fun o =>
        reMatches fuel b o.1 o.2.1 o.2.2
    | .alt a b =>
      reMatches fuel a prev s caps ++ reMatches fuel b prev s caps
    | .group i r =>
      (reMatches fuel r prev s caps).map fun o =>
        (o.1, o.2.1, (i, s.take (s.length - o.2.1.length)) :: o.2.2)
    | .wordB =>
      let before := match prev with
        | some c => isWordChar c
        | none => false
      let after := match s with
        | c :: _ => isWordChar c
        | [] => false
      if before ≠ after then [(prev, s, caps)] else []
    | .star r =>
      ((reMatches fuel r prev s caps).filter fun o =>
          decide (o.2.1.length < s.length)).flatMap
        (fun o => reMatches fuel (.star r) o.1 o.2.1 o.2.2) ++
      [(prev, s, caps)]

def reFuel (r : RE) (s : Str) : ℕ := (reSize r + 1) * (s.length + 2)

/-- The match JavaScript commits to for an anchored pattern (the patterns
used here all begin with `^` and have no `$`), as its capture list;
`none` when the pattern does not match. -/
def reFirst (r : RE) (s : Str) : Option Caps :=
  ((reMatches (reFuel r s) r none s []).map fun o => o.2.2).head?

/-- Group lookup `match[i]`: the captured text of group `i` (`none` = group did not
participate). -/
def capGet (caps : Caps) (i : ℕ) : Option Str :=
  (caps.find? fun p => decide (p.1 = i)).map fun p => p.2

/-- Greedy `r?`. -/
def reOpt (r : RE) : RE := .alt r .eps

/-- Greedy `r{0,n}`. -/
def reUpTo : ℕ → RE → RE
  | 0, _ => .eps
  | n + 1, r => reOpt (.seq r (reUpTo n r))

/-- A literal word. -/
def reLit (s : Str) : RE := s.foldr (fun c acc => .seq (.cls fun x => x == c) acc) .eps

def reDigit : RE := .cls isDigitChar

/-- Pattern `\d+`. -/
def reDigits1 : RE := .seq reDigit (.star reDigit)

/-- Patterns `\s+` and `\s*`. -/
def reSpace : RE := .cls isJsWsChar
def reSpaces1 : RE := .seq reSpace (.star reSpace)
def reSpaces0 : RE := .star reSpace

/-- Class `[A-Z]`. -/
def isUpperAlphaChar (c : Char) : Bool :=
  decide (65 ≤ c.toNat ∧ c.toNat ≤ 90)

/-- Pattern `(CALL|PUT|[CP])`. -/
def reRight : RE :=
  .alt (reLit "CALL".data) (.alt (reLit "PUT".data)
    (.cls fun c => c == 'C' || c == 'P'))

/-- Pattern `(\d+(?:\.\d+)?)` without the group node. -/
def reStrike : RE :=
  .seq reDigits1 (reOpt (.seq (.cls fun c => c == '.') reDigits1))

/-- Pattern `\d{1,2}`. -/
def reD12 : RE := .seq reDigit (reUpTo 1 reDigit)

/-- The date-separator class: a slash or a dash. -/
def reDateSep : RE := .cls fun c => c == '/' || c == '-'

/-- Pattern `\d{1,2} sep \d{1,2} sep \d{2,4}` where sep is slash or dash. -/
def reNumericDate : RE :=
  .seq reD12 (.seq reDateSep (.seq reD12 (.seq reDateSep
    (.seq reDigit (.seq reDigit (reUpTo 2 reDigit))))))

/-- Pattern `(?:\d+\s+)?`. -/
def reOptQty : RE := reOpt (.seq reDigits1 reSpaces1)

/-- Pattern `[A-Z0-9]{1,6}`. -/
def reUnderlying : RE :=
  .seq (.cls isUpperAlnumChar) (reUpTo 5 (.cls isUpperAlnumChar))

/-- The regex
`^(?:\d+\s+)?([A-Z0-9]{1,6})\s+(?:\d+\s+)?(\d{1,2} sep \d{1,2} sep \d{2,4})\s+(\d+(?:\.\d+)?)\s*(CALL|PUT|[CP])\b`
(App.tsx:1440–1442, sep being slash or dash). -/
def reNumericDesc : RE :=
  .seq reOptQty (.seq (.group 1 reUnderlying) (.seq reSpaces1
    (.seq reOptQty (.seq (.group 2 reNumericDate) (.seq reSpaces1
      (.seq (.group 3 reStrike) (.seq reSpaces0
        (.seq (.group 4 reRight) .wordB))))))))

/-- The regex
`^(?:\d+\s+)?([A-Z0-9]{1,6})\s+(?:\d+\s+)?(\d{1,2})\s+([A-Z]{3})\s+(\d{2,4})\s+(\d+(?:\.\d+)?)\s*(CALL|PUT|[CP])\b`
(App.tsx:1443–1445). -/
def reMonthDesc : RE :=
  .seq reOptQty (.seq (.group 1 reUnderlying) (.seq reSpaces1
    (.seq reOptQty (.seq (.group 2 reD12) (.seq reSpaces1
      (.seq (.group 3 (.seq (.cls isUpperAlphaChar)
          (.seq (.cls isUpperAlphaChar) (.cls isUpperAlphaChar))))
        (.seq reSpaces1 (.seq (.group 4 (.seq reDigit (.seq reDigit
            (reUpTo 2 reDigit))))
          (.seq reSpaces1 (.seq (.group 5 reStrike) (.seq reSpaces0
            (.seq (.group 6 reRight) .wordB))))))))))))

/-- The regex
`^(?:\d+\s+)?(\d{1,2} sep \d{1,2} sep \d{2,4})\s+(\d+(?:\.\d+)?)\s*(CALL|PUT|[CP])\b`
(App.tsx:1446–1448, sep being slash or dash). -/
def reNumericNoU : RE :=
  .seq reOptQty (.seq (.group 1 reNumericDate) (.seq reSpaces1
    (.seq (.group 2 reStrike) (.seq reSpaces0
      (.seq (.group 3 reRight) .wordB)))))

/-- The regex
`^(?:\d+\s+)?(\d{1,2})\s+([A-Z]{3})\s+(\d{2,4})\s+(\d+(?:\.\d+)?)\s*(CALL|PUT|[CP])\b`
(App.tsx:1449–1451). -/
def reMonthNoU : RE :=
  .seq reOptQty (.seq (.group 1 reD12) (.seq reSpaces1
    (.seq (.group 2 (.seq (.cls isUpperAlphaChar)
        (.seq (.cls isUpperAlphaChar) (.cls isUpperAlphaChar))))
      (.seq reSpaces1 (.seq (.group 3 (.seq reDigit (.seq reDigit
          (reUpTo 2 reDigit))))
        (.seq reSpaces1 (.seq (.group 4 reStrike) (.seq reSpaces0
          (.seq (.group 5 reRight) .wordB)))))))))

/-! `parseOptionDescription` (App.tsx:1436–1530) -/

/-- Embedding of `replace(/\s+/g, " ")`: collapse whitespace runs to single spaces. -/
def collapseWsAux : Str → Bool → Str
  | [], _ => []
  | c :: t, inRun =>
    if isJsWsChar c then
      if inRun then collapseWsAux t true else ' ' :: collapseWsAux t true
    else c :: collapseWsAux t false

def collapseWs (s : Str) : Str := collapseWsAux s false

/-- The `monthMap` lookup of `parseOptionDescription`. -/
def monthMapLookup (mk : Str) : Option Str :=
  if mk = "JAN".data then some "01".data
  else if mk = "FEB".data then some "02".data
  else if mk = "MAR".data then some "03".data
  else if mk = "APR".data then some "04".data
  else if mk = "MAY".data then some "05".data
  else if mk = "JUN".data then some "06".data
  else if mk = "JUL".data then some "07".data
  else if mk = "AUG".data then some "08".data
  else if mk = "SEP".data then some "09".data
  else if mk = "OCT".data then some "10".data
  else if mk = "NOV".data then some "11".data
  else if mk = "DEC".data then some "12".data
  else none

structure OptionDescParsed where
  symbol : Str
  underlying : Str
  expiry : Str
  strike : ℚ
  option_type : Str
deriving DecidableEq, Repr

/-- Embedding of `right = m.startsWith("P") ? "P" : "C"` on a right capture. -/
def rightOfCapture (s : Str) : Str :=
  if startsWithStr ['P'] s then "P".data else "C".data

/-- Embedding of `Number(capture)` on a strike capture (always of shape
`\d+(\.\d+)?`, so always finite). -/
def strikeOfCapture (s : Str) : ℚ := (jsStrToNum s).getD 0

/-- The month-branch expiry computation shared by both month patterns
(App.tsx:1462–1484 and 1492–1515). -/
def monthBranchExpiry (dayRaw monthKey yearRaw : Str) : Str :=
  let day := padStart 2 '0' dayRaw
  let year := if yearRaw.length = 2 then "20".data ++ yearRaw else yearRaw
  match monthMapLookup monthKey with
  | some month => year ++ ['-'] ++ month ++ ['-'] ++ day
  | none => []

/-- The common tail of `parseOptionDescription` (App.tsx:1521–1529). -/
def finishOptionDesc (underlying expiry right : Str) (strike : ℚ) :
    Option OptionDescParsed :=
  let symbol := buildOsiSymbol underlying expiry right (some strike)
  if symbol = [] then none
  else some
    { symbol := symbol
      underlying := underlying
      expiry := expiry
      strike := strike
      option_type := if right = "P".data then "PUT".data else "CALL".data }

/-- Embedding of `parseOptionDescription` (App.tsx:1436–1530).  `fallbackUnderlying`
is a string with `[]` for both "absent" and the falsy empty string —
the source only tests its truthiness and upper-cases it. -/
def parseOptionDescription (raw : Str) (fallbackUnderlying : Str) :
    Option OptionDescParsed :=
  let text := jsToUpper (trimStr raw)
  if text = [] then none
  else
    let cleaned := collapseWs text
    match reFirst reNumericDesc cleaned with
    | some caps =>
      finishOptionDesc ((capGet caps 1).getD [])
        (normalizeExpiryInput ((capGet caps 2).getD []))
        (rightOfCapture ((capGet caps 4).getD []))
        (strikeOfCapture ((capGet caps 3).getD []))
    | none =>
      match reFirst reMonthDesc cleaned with
      | some caps =>
        finishOptionDesc ((capGet caps 1).getD [])
          (monthBranchExpiry ((capGet caps 2).getD [])
            ((capGet caps 3).getD []) ((capGet caps 4).getD []))
          (rightOfCapture ((capGet caps 6).getD []))
          (strikeOfCapture ((capGet caps 5).getD []))
      | none =>
        if fallbackUnderlying ≠ [] then
          match reFirst reNumericNoU cleaned with
          | some caps =>
            finishOptionDesc (jsToUpper fallbackUnderlying)
              (normalizeExpiryInput ((capGet caps 1).getD []))
              (rightOfCapture ((capGet caps 3).getD []))
              (strikeOfCapture ((capGet caps 2).getD []))
          | none =>
            match reFirst reMonthNoU cleaned with
            | some caps =>
              finishOptionDesc (jsToUpper fallbackUnderlying)
                (monthBranchExpiry ((capGet caps 1).getD [])
                  ((capGet caps 2).getD []) ((capGet caps 3).getD []))
                (rightOfCapture ((capGet caps 5).getD []))
                (strikeOfCapture ((capGet caps 4).getD []))
            | none => none
        else none

/-! Account-statement position extraction (App.tsx:1532–1653) -/

/-- A position row extracted from an account statement or the generic
CSV path (the object pushed at App.tsx:1639–1649). -/
structure StmtPos where
  symbol : Str
  qty : ℚ
  price : ℚ
  avg_cost : Option ℚ
  asset_class : Str
  underlying : Option Str
  expiry : Option Str
  strike : Option ℚ
  option_type : Option Str
deriving DecidableEq, Repr

/-- Embedding of `s || undefined`. -/
def strOrNone (s : Str) : Option Str := if s = [] then none else some s

/-- Section-header test (App.tsx:1535–1536). -/
def isSectionHeaderRow (row : List Str) : Bool :=
  row.length = 1 ∨
    (trimStr (row.headD []) ≠ [] ∧
      ¬ (row.drop 1).any fun cell => trimStr cell ≠ [])

/-- Embedding of `header.indexOf(name)` (first occurrence). -/
def idxOf (header : List Str) (name : Str) : Option ℕ :=
  header.findIdx? fun h => h == name

/-- Embedding of `header.indexOf(a) >= 0 ? header.indexOf(a) : header.indexOf(b)`. -/
def idxOf2 (header : List Str) (a b : Str) : Option ℕ :=
  match idxOf header a with
  | some i => some i
  | none => idxOf header b

/-- Embedding of `idx >= 0 ? (row[idx] || "") : ""`. -/
def cellAt (row : List Str) (idx : Option ℕ) : Str :=
  match idx with
  | some i => row.getD i []
  | none => []

/-- Embedding of `idx >= 0 ? parseNumber(row[idx] || "") : NaN`. -/
def numAt (row : List Str) (idx : Option ℕ) : Option ℚ :=
  match idx with
  | some i => parseNumber (row.getD i [])
  | none => none

/-- The resolved column indices of one statement section
(App.tsx:1547–1557). -/
structure StmtCols where
  symbolIdx : Option ℕ
  descIdx : Option ℕ
  qtyIdx : Option ℕ
  tradeIdx : Option ℕ
  markIdx : Option ℕ
  lastIdx : Option ℕ
  priceIdx : Option ℕ
  underlyingIdx : Option ℕ
  expiryIdx : Option ℕ
  strikeIdx : Option ℕ
  rightIdx : Option ℕ

/-- Section asset class from the section name (App.tsx:1558–1566):
starts at EQUITY, then OPTION/FUTURE/FOREX keyword checks in order. -/
def sectionAssetClass (sectionUpper : Str) : Str :=
  let a1 := if strIncludes sectionUpper "OPTION".data then "OPTION".data
    else "EQUITY".data
  let a2 := if strIncludes sectionUpper "FUTURE".data then "FUTURE".data
    else a1
  if strIncludes sectionUpper "FOREX".data then "FOREX".data else a2

def isPositionSection (sectionUpper : Str) : Bool :=
  ["EQUITIES".data, "OPTIONS".data, "FUTURES".data, "FOREX".data,
    "CRYPTO".data, "POSITIONS".data].any fun label =>
    strIncludes sectionUpper label

/-- The rows of one section body: read until a blank row, a new section
header, or a row whose second cell matches `/total/i`
(App.tsx:1568–1573). -/
def stmtSectionBody (rows : List (List Str)) : List (List Str) :=
  rows.takeWhile fun row =>
    ¬ row.all (fun cell => trimStr cell = []) ∧
    ¬ isSectionHeaderRow row ∧
    ¬ strIncludes (jsToLower (trimStr (row.getD 1 []))) "total".data

/-- Process one data row of a statement section (App.tsx:1575–1649).
Returns the extracted position (if the row is kept) and the updated
section-level `assetClass` variable, which the source mutates and which
therefore carries over to the following rows of the section. -/
def processStmtRow (cols : StmtCols) (assetClass : Str)
    (row : List Str) : Option StmtPos × Str :=
  let rawSymbol := trimStr (cellAt row cols.symbolIdx)
  if rawSymbol = [] then (none, assetClass)
  else
    let desc := match cols.descIdx with
      | some i => trimStr (row.getD i [])
      | none => []
    match parseNumber (cellAt row cols.qtyIdx) with
    | none => (none, assetClass)
    | some qty =>
      if qty = 0 then (none, assetClass)
      else
        let tradePrice := numAt row cols.tradeIdx
        let mark := numAt row cols.markIdx
        let last := numAt row cols.lastIdx
        let directPrice := numAt row cols.priceIdx
        let candidates := ([mark, last, directPrice,
          tradePrice].filterMap id).filter fun v => decide (0 < v)
        let price := candidates.headD 0
        let avgCost : Option ℚ := match tradePrice with
          | some tp =>
            if 0 < tp then some tp
            else if 0 < price then some price else none
          | none => if 0 < price then some price else none
        let symbol0 := jsToUpper (rawSymbol.filter fun c => ¬ isJsWsChar c)
        match parseOsiSymbol symbol0 with
        | some ps =>
          (some { symbol := symbol0
                  qty := qty
                  price := price
                  avg_cost := avgCost
                  asset_class := "OPTION".data
                  underlying := strOrNone ps.underlying
                  expiry := strOrNone ps.expiry
                  strike := some ps.strike
                  option_type := strOrNone ps.option_type }, "OPTION".data)
        | none =>
          let rawUnderlying := trimStr (cellAt row cols.underlyingIdx)
          let rawExpiry := trimStr (cellAt row cols.expiryIdx)
          let rawStrike := trimStr (cellAt row cols.strikeIdx)
          let rawRight := trimStr (cellAt row cols.rightIdx)
          let explicit : Option (Str × Str × ℚ × Str) :=
            if rawUnderlying ≠ [] ∧ rawExpiry ≠ [] ∧ rawStrike ≠ [] ∧
                rawRight ≠ [] then
              let normalizedExpiry := normalizeExpiryInput rawExpiry
              let right := if startsWithStr ['P'] (jsToUpper rawRight) then
                "P".data else "C".data
              match parseNumber rawStrike with
              | some parsedStrike =>
                if normalizedExpiry ≠ [] then
                  let built := buildOsiSymbol rawUnderlying normalizedExpiry
                    right (some parsedStrike)
                  if built ≠ [] then
                    some (built, normalizedExpiry, parsedStrike, right)
                  else none
                else none
              | none => none
            else none
          let st1 : StmtPos × Str := match explicit with
            | some e =>
              ({ symbol := e.1
                 qty := qty
                 price := price
                 avg_cost := avgCost
                 asset_class := "OPTION".data
                 underlying := strOrNone (jsToUpper rawUnderlying)
                 expiry := strOrNone e.2.1
                 strike := some e.2.2.1
                 option_type :=
                   strOrNone (if e.2.2.2 = "P".data then "PUT".data
                     else "CALL".data) }, "OPTION".data)
            | none =>
              ({ symbol := symbol0
                 qty := qty
                 price := price
                 avg_cost := avgCost
                 asset_class := assetClass
                 underlying := none
                 expiry := none
                 strike := none
                 option_type := none }, assetClass)
          let symbolCur := st1.1.symbol
          let rowText := List.intercalate [' ']
            (row.filter fun cell => trimStr cell ≠ [])
          let fallback := jsStrOr rawUnderlying (jsStrOr symbolCur rawSymbol)
          let parsedDesc0 := parseOptionDescription desc fallback
          let parsedDesc1 := match parsedDesc0 with
            | some d => some d
            | none => parseOptionDescription rawSymbol fallback
          let parsedDesc := match parsedDesc1 with
            | some d => some d
            | none =>
              if rowText ≠ [] then parseOptionDescription rowText fallback
              else none
          match parsedDesc with
          | some d =>
            (some { symbol := d.symbol
                    qty := qty
                    price := price
                    avg_cost := avgCost
                    asset_class := "OPTION".data
                    underlying := strOrNone d.underlying
                    expiry := strOrNone d.expiry
                    strike := some d.strike
                    option_type := strOrNone d.option_type }, "OPTION".data)
          | none => (some st1.1, st1.2)

/-- Fold over a section body threading the mutable `assetClass`. -/
def processStmtRows (cols : StmtCols) :
    List (List Str) → Str → List StmtPos
  | [], _ => []
  | row :: rest, assetClass =>
    match processStmtRow cols assetClass row with
    | (some p, ac2) => p :: processStmtRows cols rest ac2
    | (none, ac2) => processStmtRows cols rest ac2

/-- One iteration of the outer section scan (App.tsx:1537–1651). -/
def processSection (rows : List (List Str)) (i : ℕ) : List StmtPos :=
  let sectionName := trimStr ((rows.getD i []).headD [])
  let headerRow := rows.getD (i + 1) []
  let header := headerRow.map normalizeHeader
  if ¬ (header.contains "symbol".data ∧ header.contains "qty".data) then []
  else if ¬ (header.contains "mark".data ∨ header.contains "last".data ∨
      header.contains "trade_price".data ∨ header.contains "price".data)
  then []
  else
    let cols : StmtCols :=
      { symbolIdx := idxOf header "symbol".data
        descIdx := idxOf header "description".data
        qtyIdx := idxOf header "qty".data
        tradeIdx := idxOf header "trade_price".data
        markIdx := idxOf header "mark".data
        lastIdx := idxOf header "last".data
        priceIdx := idxOf header "price".data
        underlyingIdx := idxOf2 header "underlying".data "root".data
        expiryIdx := idxOf2 header "expiry".data "expiration_date".data
        strikeIdx := idxOf2 header "strike".data "strike_price".data
        rightIdx := idxOf2 header "option_type".data "put_call".data }
    let sectionUpper := jsToUpper sectionName
    if ¬ isPositionSection sectionUpper then []
    else processStmtRows cols (stmtSectionBody (rows.drop (i + 2)))
      (sectionAssetClass sectionUpper)

/-- Embedding of `parseAccountStatementPositions` (App.tsx:1532–1653).  The outer
loop advances `i` one row at a time over `0 … rows.length − 2` and each
qualifying section contributes its extracted rows in order. -/
def parseAccountStatementPositions (rows : List (List Str)) :
    List StmtPos :=
  if rows = [] then []
  else (List.range (rows.length - 1)).flatMap (processSection rows)

/-! Generic flexible-CSV positions payload (App.tsx:1783–1884) -/

/-- A row of the payload posted to `/positions/bulk` by the generic CSV
path (App.tsx:1868–1883). -/
structure PayloadRow where
  instrument_id : Option Str
  symbol : Str
  qty : ℚ
  price : ℚ
  avg_cost : Option ℚ
  asset_class : Str
  underlying : Option Str
  expiry : Option Str
  strike : Option ℚ
  option_type : Option Str
  multiplier : Option ℚ
  entry_date : Option Str
  sector : Option Str
  strategy : Option Str
deriving DecidableEq, Repr

/-- The alias table of the generic importer (App.tsx:1783–1799). -/
def aliasSymbol : List Str :=
  ["symbol".data, "sym".data, "ticker".data, "instrument".data,
   "instrument_symbol".data, "option_symbol".data, "security".data,
   "description".data]

def aliasInstrumentId : List Str :=
  ["instrument_id".data, "instrumentid".data, "id".data]

def aliasQty : List Str :=
  ["qty".data, "quantity".data, "position".data, "pos".data,
   "position_qty".data, "net_qty".data, "net_quantity".data, "units".data,
   "size".data]

def aliasPrice : List Str :=
  ["price".data, "mark".data, "last".data, "last_price".data,
   "mark_price".data, "market_price".data, "current_price".data]

def aliasAvgCost : List Str :=
  ["avg_cost".data, "avg".data, "average_price".data, "avg_price".data,
   "trade_price".data, "entry_price".data, "cost".data, "cost_basis".data,
   "basis".data]

def aliasEntryDate : List Str :=
  ["entry_date".data, "entrydate".data, "open_date".data, "opendate".data,
   "opened".data, "date_opened".data, "opened_on".data]

def aliasAssetClass : List Str :=
  ["asset_class".data, "asset".data, "type".data, "instrument_type".data,
   "security_type".data, "product_type".data]

def aliasUnderlying : List Str :=
  ["underlying".data, "underlier".data, "root".data, "root_symbol".data,
   "underlying_symbol".data]

def aliasExpiry : List Str :=
  ["expiry".data, "exp".data, "expiration".data, "expiration_date".data,
   "exp_date".data]

def aliasStrike : List Str := ["strike".data, "strike_price".data]

def aliasOptionType : List Str :=
  ["option_type".data, "right".data, "put_call".data, "call_put".data,
   "cp".data, "p_c".data]

def aliasMultiplier : List Str :=
  ["multiplier".data, "contract_multiplier".data, "mult".data]

def aliasSector : List Str := ["sector".data, "industry".data]

def aliasStrategy : List Str :=
  ["strategy".data, "strategy_name".data, "book".data, "portfolio".data]

def aliasSide : List Str :=
  ["side".data, "direction".data, "long_short".data, "longshort".data]

/-- The `normalized` record, re-keyed through `normalizeHeader`
(App.tsx:1801–1805). -/
def normalizedObj (raw : List (Str × Str)) : List (Str × Str) :=
  raw.foldl (fun acc kv => objSet acc (normalizeHeader kv.1) kv.2) []

/-- Embedding of `pick` (App.tsx:1806–1812): first alias whose normalized key holds a
non-null, non-empty value. -/
def pickField (normalized : List (Str × Str)) : List Str → Str
  | [] => []
  | a :: rest =>
    match objGet normalized (normalizeHeader a) with
    | some v => if v = [] then pickField normalized rest else v
    | none => pickField normalized rest

/-- One row of `positionsPayload` (App.tsx:1816–1884). -/
def buildPayloadRow (raw : List (Str × Str)) : PayloadRow :=
  let normalized := normalizedObj raw
  let pick := pickField normalized
  let rawSymbol := pick aliasSymbol
  let parsedDesc := parseOptionDescription rawSymbol (pick aliasUnderlying)
  let cleanedSymbol := jsToUpper (rawSymbol.filter fun c => ¬ isJsWsChar c)
  let parsedSymbol := parseOsiSymbol cleanedSymbol
  let underlying := jsToUpper (jsStrOr (pick aliasUnderlying)
    (jsStrOr ((parsedDesc.map fun d => d.underlying).getD [])
      ((parsedSymbol.map fun p => p.underlying).getD [])))
  let expiry := jsStrOr (pick aliasExpiry)
    (jsStrOr ((parsedDesc.map fun d => d.expiry).getD [])
      ((parsedSymbol.map fun p => p.expiry).getD []))
  let strikeRaw := pick aliasStrike
  let strike : Option ℚ :=
    if (parseNumber strikeRaw).isSome ∧ strikeRaw ≠ [] then
      some ((parseNumber strikeRaw).getD 0)
    else match parsedDesc with
      | some d => some d.strike
      | none => parsedSymbol.map fun p => p.strike
  let rightRaw := jsToUpper (jsStrOr (pick aliasOptionType)
    (jsStrOr ((parsedDesc.map fun d => d.option_type).getD [])
      ((parsedSymbol.map fun p => p.option_type).getD [])))
  let right := if startsWithStr ['P'] rightRaw then "PUT".data
    else if startsWithStr ['C'] rightRaw then "CALL".data else rightRaw
  let sideRaw := jsToUpper (pick aliasSide)
  let symbol1 :=
    if parsedSymbol = none ∧
        ((parsedDesc.map fun d => d.symbol).getD []) ≠ [] then
      (parsedDesc.map fun d => d.symbol).getD []
    else if parsedSymbol = none ∧ underlying ≠ [] ∧ expiry ≠ [] ∧
        strike.getD 0 ≠ 0 ∧ right ≠ [] then
      let built := buildOsiSymbol underlying (normalizeExpiryInput expiry)
        (if startsWithStr ['P'] right then "P".data else "C".data)
        (some ((strike.getD 0)))
      if built ≠ [] then built else cleanedSymbol
    else cleanedSymbol
  let assetClassRaw := jsToUpper (pick aliasAssetClass)
  let isOption :=
    (parseOsiSymbol symbol1).isSome ∨ startsWithStr ['P'] right ∨
    startsWithStr ['C'] right ∨ strIncludes assetClassRaw "OPT".data ∨
    strIncludes assetClassRaw "CALL".data ∨
    strIncludes assetClassRaw "PUT".data
  let isFuture :=
    strIncludes assetClassRaw "FUT".data ∨
    strIncludes assetClassRaw "FUTURE".data ∨ isFutureSymbol symbol1
  let qty0 : ℚ := match parseNumber (pick aliasQty) with
    | some v => v
    | none => 0
  let qty1 := if qty0 ≠ 0 ∧ sideRaw ≠ [] ∧
      (strIncludes sideRaw "SHORT".data ∨ strIncludes sideRaw "SELL".data)
    then -|qty0| else qty0
  let qty2 := if qty0 ≠ 0 ∧ sideRaw ≠ [] ∧
      (strIncludes sideRaw "LONG".data ∨ strIncludes sideRaw "BUY".data)
    then |qty1| else qty1
  let priceRaw := parseNumber (pick aliasPrice)
  let avgRaw := parseNumber (pick aliasAvgCost)
  let price := match priceRaw with
    | some p => p
    | none => match avgRaw with
      | some a => a
      | none => 0
  let avg_cost : Option ℚ := match avgRaw with
    | some a => some a
    | none => priceRaw
  let entryDateRaw := normalizeExpiryInput (pick aliasEntryDate)
  { instrument_id := strOrNone (pick aliasInstrumentId)
    symbol := jsToUpper symbol1
    qty := qty2
    price := price
    avg_cost := avg_cost
    asset_class := jsToUpper (jsStrOr (pick aliasAssetClass)
      (if isOption then "OPTION".data
       else if isFuture then "FUTURE".data else "EQUITY".data))
    underlying := strOrNone (jsToUpper underlying)
    expiry := strOrNone expiry
    strike := strike
    option_type := strOrNone (jsToUpper right)
    multiplier := if pick aliasMultiplier ≠ [] then
        parseNumber (pick aliasMultiplier)
      else none
    entry_date := if isIsoDateShape entryDateRaw then some entryDateRaw
      else none
    sector := strOrNone (pick aliasSector)
    strategy := strOrNone (pick aliasStrategy) }

/-! Format detection and the import control flow (App.tsx:1655–1900,
1902–1929, 934–942) -/

def headerRowOf (rawRows : List (List Str)) : List Str :=
  (rawRows.headD []).map fun cell => trimStr (jsToLower (stripBom cell))

/-- Transactions-report predicate (App.tsx:1664–1668). -/
def transactionsHeaderPred (headerRow : List Str) : Bool :=
  headerRow.contains "action".data ∧ headerRow.contains "amount".data ∧
  headerRow.contains "quantity".data ∧
  headerRow.any fun cell => strIncludes cell "fees".data

/-- The joined, lower-cased text of each of the first 20 rows
(App.tsx:1669–1672). -/
def firstRowsOf (rawRows : List (List Str)) : List Str :=
  (rawRows.take 20).map fun row =>
    List.intercalate [' '] (row.map fun cell => jsToLower (stripBom cell))

/-- Balances-report predicate (App.tsx:1673–1675). -/
def balancesPred (firstRows : List Str) : Bool :=
  (firstRows.any fun t =>
    strIncludes t "balances for all-accounts".data ∨
    strIncludes t "balances for all accounts".data) ∨
  (firstRows.any fun t =>
    strIncludes t "total accounts value".data ∧
    strIncludes t "cash & cash investments total".data)

/-- Account-statement predicate (App.tsx:1676). -/
def accountStatementPred (firstRows : List Str) : Bool :=
  firstRows.any fun t => strIncludes t "account statement".data

/-- Positions-report predicate (App.tsx:1677–1679). -/
def positionsReportPred (firstRows : List Str) : Bool :=
  firstRows.any fun t =>
    strIncludes t "positions for".data ∨ strIncludes t "custaccs".data

inductive ImportKind where
  | balances
  | positionsReport
  | transactions
  | accountStatement
  | generic
deriving DecidableEq, Repr

/-- The classification implicit in the branch order of `importCsvFile`
(App.tsx:1680, 1701, 1725, 1756, 1778): balances first, then positions
report, then transactions, then account statement, then the generic
fallback. -/
def detectImportKind (rawRows : List (List Str)) : ImportKind :=
  if balancesPred (firstRowsOf rawRows) then .balances
  else if positionsReportPred (firstRowsOf rawRows) then .positionsReport
  else if transactionsHeaderPred (headerRowOf rawRows) then .transactions
  else if accountStatementPred (firstRowsOf rawRows) then
    .accountStatement
  else .generic

/-- Embedding of `requireAccount` (App.tsx:934–942): `none` when the account context
is empty or "ALL". -/
def requireAccount (accountId : Str) : Option Str :=
  if accountId = [] ∨ accountId = "ALL".data then none else some accountId

/-- The externally visible decision of one `importCsvFile` call, up to
the first API request: which request would be posted (and with which
payload), or which error stops the import with no request issued. -/
inductive CsvImportAction where
  | emptyError
  | balancesRequest
  | scopeError (action : Str)
  | positionsReportRequest (account : Str)
  | transactionsRequest (account : Str)
  | statementNoRowsError
  | statementBulkRequest (account : Str) (positions : List StmtPos)
  | parsedEmptyError
  | genericNoRowsError
  | genericBulkRequest (account : Str) (positions : List PayloadRow)
deriving DecidableEq, Repr

/-- The row filter of the statement import (App.tsx:1760–1762).
`Number.isFinite` is identically true here because `qty : ℚ`. -/
def goodStmtRow (r : StmtPos) : Bool := r.symbol ≠ [] ∧ r.qty ≠ 0

/-- The row filter of the generic import (App.tsx:1886).
`Number.isFinite` is identically true here because `qty : ℚ`. -/
def goodPayloadRow (r : PayloadRow) : Bool := r.symbol ≠ [] ∧ r.qty ≠ 0

/-- The account-statement branch (App.tsx:1756–1777), after the scope
check succeeded. -/
def statementImportAction (account : Str) (rawRows : List (List Str)) :
    CsvImportAction :=
  let filtered := (parseAccountStatementPositions rawRows).filter
    goodStmtRow
  if filtered = [] then .statementNoRowsError
  else .statementBulkRequest account filtered

/-- The generic branch (App.tsx:1778–1899): parse records, build the
payload, drop bad rows, fail on zero usable rows, then check the account
scope and post. -/
def genericImportAction (accountId : Str) (text : Str) :
    CsvImportAction :=
  let rows := parseCsv text
  if rows = [] then .parsedEmptyError
  else
    let filtered := (rows.map buildPayloadRow).filter goodPayloadRow
    if filtered = [] then .genericNoRowsError
    else
      match requireAccount accountId with
      | none => .scopeError "import positions CSV".data
      | some account => .genericBulkRequest account filtered

/-- Embedding of `importCsvFile` (App.tsx:1655–1900), modeled up to its first API
request or terminal error. -/
def importCsvFile (accountId : Str) (text : Str) : CsvImportAction :=
  let rawRows := parseCsvRows text
  if rawRows = [] then .emptyError
  else
    match detectImportKind rawRows with
    | .balances => .balancesRequest
    | .positionsReport =>
      match requireAccount accountId with
      | none => .scopeError "import positions CSV".data
      | some account => .positionsReportRequest account
    | .transactions =>
      match requireAccount accountId with
      | none => .scopeError "import transactions CSV".data
      | some account => .transactionsRequest account
    | .accountStatement =>
      match requireAccount accountId with
      | none => .scopeError "import positions from account statement".data
      | some account => statementImportAction account rawRows
    | .generic => genericImportAction accountId text

/-- Whether an action posts an account-scoped mutating request. -/
def isAccountScopedRequest : CsvImportAction → Bool
  | .positionsReportRequest _ => true
  | .transactionsRequest _ => true
  | .statementBulkRequest _ _ => true
  | .genericBulkRequest _ _ => true
  | _ => false

/-- The decision of `importNavText` (App.tsx:1902–1929) up to its API
request. -/
inductive NavImportAction where
  | scopeError
  | emptyTextError
  | navRequest (account : Str) (text : Str)
deriving DecidableEq, Repr

def importNavText (accountId : Str) (navPasteText : Str) :
    NavImportAction :=
  match requireAccount accountId with
  | none => .scopeError
  | some account =>
    if trimStr navPasteText = [] then .emptyTextError
    else .navRequest account navPasteText

/-! NAV snapshot write path -/

structure NavSnapshot where
  account : Str
  date : Str
  nav : ℚ
  bench : Option ℚ
deriving DecidableEq, Repr

/-- Modelled from the spec: the backend `store_nav_snapshot`
(`backend/app/services/legacy_engine.py`) is not among the sources under
`src/`; §4.3 of the spec specifies its write path and the repository
changelog (src/unnamed/part_003, lines 186–198) quotes the fixed code:
`bench_val = float(bench) if bench is not None and bench > 0 else None`,
stored with the nav for the (account, date) key. -/
def store_nav_snapshot (account date : Str) (nav : ℚ)
    (bench : Option ℚ) : NavSnapshot :=
  { account := account
    date := date
    nav := nav
    bench := match bench with
      | some b => if 0 < b then some b else none
      | none => none }

/-- Concrete generic-CSV text for the C6 witness: one good row, one
zero-quantity row, one empty-symbol row. -/
def c6ExText : Str := "symbol,qty\nABC,5\nZED,0\n,3".data

/-! Theorems: the claims of the specification, their helper lemmas,
witnesses and counterexamples. -/

theorem list_map_id_of {α : Type} (f : α → α) :
    ∀ l : List α, (∀ a ∈ l, f a = a) → l.map f = l
  | [], _ => rfl
  | a :: t, h => by
    rw [List.map_cons, h a (List.mem_cons_self a t),
      list_map_id_of f t fun b hb => h b (List.mem_cons_of_mem a hb)]

theorem natDigitsAux_eq_digits (fuel : ℕ) :
    ∀ n : ℕ, n ≤ fuel → natDigitsAux fuel n = Nat.digits 10 n := by
  induction fuel with
  | zero =>
    intro n hn
    obtain rfl : n = 0 := Nat.le_zero.mp hn
    simp [natDigitsAux]
  | succ fuel ih =>
    intro n hn
    match n with
    | 0 => simp [natDigitsAux]
    | m + 1 =>
      rw [natDigitsAux, Nat.digits_def' (by norm_num : (1:ℕ) < 10) (Nat.succ_pos m)]
      congr 1
      refine ih _ ?_
      have := Nat.div_lt_self (Nat.succ_pos m) (by norm_num : (1:ℕ) < 10)
      omega

theorem natDigitsLE_eq_digits (n : ℕ) : natDigitsLE n = Nat.digits 10 n :=
  natDigitsAux_eq_digits n n le_rfl

theorem natToDigitChar_isDigit (d : ℕ) (h : d < 10) :
    isDigitChar (natToDigitChar d) = true := by
  interval_cases d <;> rfl

theorem natToDigitChar_toNat (d : ℕ) (h : d < 10) :
    (natToDigitChar d).toNat - 48 = d := by
  interval_cases d <;> rfl

theorem natToChars_all_digits (n : ℕ) :
    ∀ c ∈ natToChars n, isDigitChar c = true := by
  intro c hc
  unfold natToChars at hc
  by_cases h0 : n = 0
  · simp [h0] at hc
    simp [hc]
    rfl
  · rw [if_neg h0, natDigitsLE_eq_digits] at hc
    simp only [List.mem_map, List.mem_reverse] at hc
    obtain ⟨d, hd, rfl⟩ := hc
    exact natToDigitChar_isDigit d (Nat.digits_lt_base (by norm_num) hd)

theorem ofDigits_replicate_zero (k : ℕ) :
    Nat.ofDigits 10 (List.replicate k 0) = 0 := by
  induction k with
  | zero => rfl
  | succ k ih => simp [List.replicate_succ, Nat.ofDigits, ih]

theorem digitsToNat_natToChars (n : ℕ) : digitsToNat (natToChars n) = n := by
  unfold natToChars
  by_cases h0 : n = 0
  · subst h0
    rfl
  · rw [if_neg h0, natDigitsLE_eq_digits]
    unfold digitsToNat
    rw [List.map_map, List.map_reverse, List.reverse_reverse]
    have hmap : (Nat.digits 10 n).map
        ((fun c : Char => c.toNat - 48) ∘ natToDigitChar) = Nat.digits 10 n := by
      refine list_map_id_of _ _ ?_
      intro d hd
      exact natToDigitChar_toNat d (Nat.digits_lt_base (by norm_num) hd)
    rw [hmap, Nat.ofDigits_digits]

theorem natToChars_length_le (n : ℕ) (h : n ≤ 99999999) :
    (natToChars n).length ≤ 8 := by
  unfold natToChars
  by_cases h0 : n = 0
  · simp [h0]
  · rw [if_neg h0, natDigitsLE_eq_digits]
    simp only [List.length_map, List.length_reverse]
    by_contra hlen
    push_neg at hlen
    have hb := Nat.base_pow_length_digits_le 10 n (by norm_num) h0
    have : (10:ℕ) ^ 9 ≤ 10 ^ (Nat.digits 10 n).length :=
      Nat.pow_le_pow_right (by norm_num) hlen
    omega

theorem digitsToNat_replicate_zero_append (k : ℕ) (s : Str) :
    digitsToNat (List.replicate k '0' ++ s) = digitsToNat s := by
  unfold digitsToNat
  rw [List.map_append, List.map_replicate]
  have : ('0'.toNat - 48) = 0 := rfl
  rw [this, List.reverse_append, List.reverse_replicate, Nat.ofDigits_append]
  simp [ofDigits_replicate_zero]

/-- Characters kept by `padStart 8 '0'` of an all-digit string are digits. -/
theorem padStart_digits (s : Str) (h : ∀ c ∈ s, isDigitChar c = true) :
    ∀ c ∈ padStart 8 '0' s, isDigitChar c = true := by
  intro c hc
  unfold padStart at hc
  rcases List.mem_append.mp hc with hrep | hs
  · rw [List.eq_of_mem_replicate hrep]; rfl
  · exact h c hs

theorem padStart_length (w : ℕ) (c : Char) (s : Str) (h : s.length ≤ w) :
    (padStart w c s).length = w := by
  unfold padStart
  simp
  omega

/-- If every character fails a predicate, `dropWhile` is the identity. -/
theorem dropWhile_eq_self_of_all (p : Char → Bool) (s : Str)
    (h : ∀ c ∈ s, p c = false) : s.dropWhile p = s := by
  match s with
  | [] => rfl
  | a :: t => simp [List.dropWhile_cons, h a (List.mem_cons_self a t)]

theorem trimStr_eq_self (s : Str) (h : ∀ c ∈ s, isJsWsChar c = false) :
    trimStr s = s := by
  unfold trimStr
  rw [dropWhile_eq_self_of_all _ s h,
      dropWhile_eq_self_of_all _ s.reverse (by simpa using h),
      List.reverse_reverse]

theorem jsToUpper_eq_self (s : Str) (h : ∀ c ∈ s, c.toNat < 97) :
    jsToUpper s = s := by
  unfold jsToUpper
  refine list_map_id_of _ _ ?_
  intro c hc
  unfold jsToUpperChar
  rw [if_neg]
  intro hcon
  exact absurd (h c hc) (by omega)

theorem isUpperAlnumChar_range (c : Char) (h : isUpperAlnumChar c = true) :
    48 ≤ c.toNat ∧ c.toNat ≤ 90 := by
  simp only [isUpperAlnumChar, decide_eq_true_eq] at h
  omega

theorem isDigitChar_range (c : Char) (h : isDigitChar c = true) :
    48 ≤ c.toNat ∧ c.toNat ≤ 57 := by
  simp only [isDigitChar, decide_eq_true_eq] at h
  omega

theorem not_ws_of_toNat_ge (c : Char) (h : 45 ≤ c.toNat) : isJsWsChar c = false := by
  simp only [isJsWsChar, decide_eq_false_iff_not]
  omega

theorem digit_ne_dash (c : Char) (h : isDigitChar c = true) : c ≠ '-' := by
  have := isDigitChar_range c h
  intro hEq
  subst hEq
  revert this
  decide

/-- Evaluation of `parseOsiSymbol` on a string assembled from valid parts.  This is the
parse side of the round-trip law: the fixed-width regex splits the input
back into exactly the assembled groups. -/
theorem parseOsiSymbol_of_parts (u ymdL : Str) (c0 : Char) (s2 : Str)
    (hu0 : u ≠ []) (hu6 : u.length ≤ 6)
    (hu : ∀ c ∈ u, isUpperAlnumChar c = true)
    (hy : ymdL.length = 6) (hyd : ∀ c ∈ ymdL, isDigitChar c = true)
    (hc0 : c0 = 'C' ∨ c0 = 'P')
    (hs2len : s2.length = 8) (hs2 : ∀ c ∈ s2, isDigitChar c = true) :
    parseOsiSymbol (u ++ ymdL ++ [c0] ++ s2) =
      some { underlying := u
             expiry := ['2', '0'] ++ ymdL.take 2 ++ ['-'] ++
               (ymdL.drop 2).take 2 ++ ['-'] ++ ymdL.drop 4
             option_type := if c0 = 'C' then "CALL".data else "PUT".data
             strike := (digitsToNat s2 : ℚ) / 1000 } := by
  have hchars : ∀ c ∈ u ++ ymdL ++ [c0] ++ s2, 48 ≤ c.toNat ∧ c.toNat ≤ 90 := by
    intro c hc
    simp only [List.append_assoc, List.mem_append, List.mem_singleton] at hc
    rcases hc with hc | hc | hc | hc
    · exact isUpperAlnumChar_range c (hu c hc)
    · have := isDigitChar_range c (hyd c hc)
      omega
    · subst hc
      rcases hc0 with h | h <;> subst h <;> decide
    · have := isDigitChar_range c (hs2 c hc)
      omega
  simp only [parseOsiSymbol]
  rw [trimStr_eq_self _ (fun c hc => not_ws_of_toNat_ge c
        (by have := hchars c hc; omega)),
      jsToUpper_eq_self _ (fun c hc => by have := hchars c hc; omega)]
  have hw1 : 1 ≤ u.length := List.length_pos.mpr hu0
  have hlen : (u ++ ymdL ++ [c0] ++ s2).length = u.length + 15 := by
    simp [hy, hs2len]
  rw [hlen]
  have hsub : u.length + 15 - 15 = u.length := by omega
  rw [if_pos ⟨by omega, by omega⟩, hsub]
  have hassoc : u ++ ymdL ++ [c0] ++ s2 = u ++ (ymdL ++ ([c0] ++ s2)) := by
    simp [List.append_assoc]
  have e1 : (u ++ ymdL ++ [c0] ++ s2).take u.length = u := by
    rw [hassoc]
    exact List.take_left u _
  have e2 : (u ++ ymdL ++ [c0] ++ s2).drop u.length = ymdL ++ ([c0] ++ s2) := by
    rw [hassoc]
    exact List.drop_left u _
  have e3 : (ymdL ++ ([c0] ++ s2)).take 6 = ymdL := by
    rw [← hy]
    exact List.take_left ymdL _
  have e4 : (ymdL ++ ([c0] ++ s2)).drop 6 = [c0] ++ s2 := by
    rw [← hy]
    exact List.drop_left ymdL _
  rw [e1, e2, e3, e4]
  have hcond : u.all isUpperAlnumChar = true ∧ ymdL.all isDigitChar = true ∧
      (([c0] ++ s2).take 1 = ['C'] ∨ ([c0] ++ s2).take 1 = ['P']) ∧
      (([c0] ++ s2).drop 1).all isDigitChar = true := by
    refine ⟨List.all_eq_true.mpr hu, List.all_eq_true.mpr hyd, ?_, ?_⟩
    · rcases hc0 with h | h <;> subst h
      · exact Or.inl rfl
      · exact Or.inr rfl
    · exact List.all_eq_true.mpr hs2
  rw [if_pos hcond]
  have htake1 : ([c0] ++ s2).take 1 = [c0] := rfl
  have hdrop1 : ([c0] ++ s2).drop 1 = s2 := rfl
  rw [htake1, hdrop1]
  congr 1
  rcases hc0 with h | h <;> subst h <;> simp

/-- Evaluation of `buildOsiSymbol` on valid parts: it produces the concatenated fixed-width
encoding (build side of the round-trip law). -/
theorem buildOsiSymbol_eq_parts
    (u : Str) (hu0 : u ≠ []) (hu : ∀ c ∈ u, isUpperAlnumChar c = true)
    (y1 y2 m1 m2 d1 d2 : Char)
    (hdig : ∀ c ∈ [y1, y2, m1, m2, d1, d2], isDigitChar c = true)
    (r : Str) (hr : r ≠ []) (q : ℚ) :
    buildOsiSymbol u ['2', '0', y1, y2, '-', m1, m2, '-', d1, d2] r (some q) =
      u ++ [y1, y2, m1, m2, d1, d2] ++
        [if jsToUpper r = ['P'] then 'P' else 'C'] ++
        padStart 8 '0' (intToChars (jsRound (q * 1000))) := by
  have hurange : ∀ c ∈ u, 48 ≤ c.toNat ∧ c.toNat ≤ 90 :=
    fun c hc => isUpperAlnumChar_range c (hu c hc)
  have hexp : ∀ c ∈ (['2', '0', y1, y2, '-', m1, m2, '-', d1, d2] : Str),
      45 ≤ c.toNat := by
    intro c hc
    simp only [List.mem_cons, List.not_mem_nil, or_false] at hc
    rcases hc with rfl | rfl | rfl | rfl | rfl | rfl | rfl | rfl | rfl | rfl <;>
      first
        | decide
        | (have h9 := isDigitChar_range c (hdig c (by simp)); omega)
  simp only [buildOsiSymbol]
  rw [trimStr_eq_self u (fun c hc => not_ws_of_toNat_ge c
        (by have := hurange c hc; omega)),
      jsToUpper_eq_self u (fun c hc => by have := hurange c hc; omega),
      trimStr_eq_self _ (fun c hc => not_ws_of_toNat_ge c (hexp c hc))]
  rw [if_neg (by
    push_neg
    refine ⟨hu0, by simp, hr, by simp⟩)]
  have hfil : (['2', '0', y1, y2, '-', m1, m2, '-', d1, d2] : Str).filter
      (fun c => c ≠ '-') = ['2', '0', y1, y2, m1, m2, d1, d2] := by
    have t1 := digit_ne_dash y1 (hdig y1 (by simp))
    have t2 := digit_ne_dash y2 (hdig y2 (by simp))
    have t3 := digit_ne_dash m1 (hdig m1 (by simp))
    have t4 := digit_ne_dash m2 (hdig m2 (by simp))
    have t5 := digit_ne_dash d1 (hdig d1 (by simp))
    have t6 := digit_ne_dash d2 (hdig d2 (by simp))
    simp [List.filter, t1, t2, t3, t4, t5, t6]
  rw [hfil]
  have hdrop : (['2', '0', y1, y2, m1, m2, d1, d2] : Str).drop 2 =
      [y1, y2, m1, m2, d1, d2] := rfl
  rw [hdrop, if_neg (by simp)]
  simp only [Option.getD_some]

theorem jsRound_nonneg (q : ℚ) (h : 0 ≤ q) : 0 ≤ jsRound q := by
  unfold jsRound
  rw [Int.le_floor]
  push_cast
  linarith

/-- Round trip of the codec on valid components: the underlying and expiry
come back unchanged, the strike comes back rounded to the nearest 0.001
(ties toward positive infinity), and the right comes back as PUT exactly
when the `right` argument upper-cases to the single letter P (any other
non-empty right, including the word PUT, comes back as CALL). -/
theorem parse_build_roundtrip
    (u : Str) (hu0 : u ≠ []) (hu6 : u.length ≤ 6)
    (hu : ∀ c ∈ u, isUpperAlnumChar c = true)
    (y1 y2 m1 m2 d1 d2 : Char)
    (hdig : ∀ c ∈ [y1, y2, m1, m2, d1, d2], isDigitChar c = true)
    (r : Str) (hr : r ≠ [])
    (q : ℚ) (hq : 0 < q) (hbound : jsRound (q * 1000) ≤ 99999999) :
    parseOsiSymbol
        (buildOsiSymbol u ['2', '0', y1, y2, '-', m1, m2, '-', d1, d2] r
          (some q)) =
      some { underlying := u
             expiry := ['2', '0', y1, y2, '-', m1, m2, '-', d1, d2]
             option_type := if jsToUpper r = ['P'] then "PUT".data
               else "CALL".data
             strike := (jsRound (q * 1000) : ℚ) / 1000 } := by
  have hm0 : 0 ≤ jsRound (q * 1000) := jsRound_nonneg _ (by positivity)
  have hkle : (jsRound (q * 1000)).toNat ≤ 99999999 := by omega
  rw [buildOsiSymbol_eq_parts u hu0 hu y1 y2 m1 m2 d1 d2 hdig r hr q]
  rw [show intToChars (jsRound (q * 1000)) =
        natToChars (jsRound (q * 1000)).toNat from by
      unfold intToChars
      rw [if_neg (not_lt.mpr hm0)]]
  rw [parseOsiSymbol_of_parts u [y1, y2, m1, m2, d1, d2] _ _ hu0 hu6 hu rfl
        hdig
        (by split
            · exact Or.inr rfl
            · exact Or.inl rfl)
        (padStart_length 8 '0' _ (natToChars_length_le _ hkle))
        (padStart_digits _ (natToChars_all_digits _))]
  have hstrike : (digitsToNat (padStart 8 '0'
      (natToChars (jsRound (q * 1000)).toNat)) : ℚ) =
      ((jsRound (q * 1000) : ℤ) : ℚ) := by
    unfold padStart
    rw [digitsToNat_replicate_zero_append, digitsToNat_natToChars]
    exact_mod_cast congrArg (Int.cast : ℤ → ℚ) (Int.toNat_of_nonneg hm0)
  by_cases hP : jsToUpper r = ['P'] <;>
    simp [hP, hstrike]

/-- C1 counterexample: the round-trip law fails as stated.  For the valid
input (AAPL, 2026-01-17, PUT, 150) — right given as the word PUT, exactly
as the spec's `right(CALL|PUT)` domain allows — `parseOsiSymbol
(buildOsiSymbol …)` succeeds but returns option_type CALL, not the
original PUT: `buildOsiSymbol` encodes the right as P only when the
argument is the single letter P. -/
theorem c1_roundtrip_put_counterexample :
    parseOsiSymbol (buildOsiSymbol "AAPL".data "2026-01-17".data "PUT".data
        (some 150)) =
      some { underlying := "AAPL".data, expiry := "2026-01-17".data,
             option_type := "CALL".data, strike := 150 } ∧
    "CALL".data ≠ "PUT".data := by
  constructor
  · with_unfolding_all rfl
  · decide

/-- C1 (amended): round-trip law of the codec.  For every valid input —
underlying of 1–6 upper-case alphanumeric characters, ISO expiry with a
year in 2000–2099, non-empty right, and a positive strike whose value
rounded to 0.001 fits the 8-digit field — parse∘build succeeds and
returns the original underlying and expiry, the strike rounded to the
nearest 0.001, and option_type PUT exactly when the right argument
upper-cases to the single letter P (any other right, including the word
PUT, comes back as CALL). -/
theorem c1_parse_build_roundtrip
    (u : Str) (hu0 : u ≠ []) (hu6 : u.length ≤ 6)
    (hu : ∀ c ∈ u, isUpperAlnumChar c = true)
    (y1 y2 m1 m2 d1 d2 : Char)
    (hdig : ∀ c ∈ [y1, y2, m1, m2, d1, d2], isDigitChar c = true)
    (r : Str) (hr : r ≠ [])
    (q : ℚ) (hq : 0 < q) (hbound : jsRound (q * 1000) ≤ 99999999) :
    parseOsiSymbol
        (buildOsiSymbol u ['2', '0', y1, y2, '-', m1, m2, '-', d1, d2] r
          (some q)) =
      some { underlying := u
             expiry := ['2', '0', y1, y2, '-', m1, m2, '-', d1, d2]
             option_type := if jsToUpper r = ['P'] then "PUT".data
               else "CALL".data
             strike := (jsRound (q * 1000) : ℚ) / 1000 } :=
  parse_build_roundtrip u hu0 hu6 hu y1 y2 m1 m2 d1 d2 hdig r hr q hq hbound

/-- Witness for C1 at (AAPL, 2026-01-17, CALL, 150.5). -/
theorem c1_parse_build_roundtrip_witness :
    parseOsiSymbol
        (buildOsiSymbol "AAPL".data ['2', '0', '2', '6', '-', '0', '1', '-',
          '1', '7'] "CALL".data (some (301 / 2))) =
      some { underlying := "AAPL".data
             expiry := ['2', '0', '2', '6', '-', '0', '1', '-', '1', '7']
             option_type := if jsToUpper "CALL".data = ['P'] then "PUT".data
               else "CALL".data
             strike := (jsRound ((301 : ℚ) / 2 * 1000) : ℚ) / 1000 } :=
  c1_parse_build_roundtrip "AAPL".data (by decide) (by decide) (by decide)
    '2' '6' '0' '1' '1' '7' (by decide) "CALL".data (by decide) (301 / 2)
    (by norm_num)
    (by rw [show jsRound ((301 : ℚ) / 2 * 1000) = 150500 from by
          with_unfolding_all rfl]
        norm_num)

/-- C8 counterexample: `buildOsiSymbol` does NOT fail for a non-positive
strike.  With a zero strike and otherwise valid components it produces a
full symbol with an all-zero strike field instead of the empty-string
failure value. -/
theorem c8_zero_strike_counterexample :
    buildOsiSymbol "AAPL".data "2026-01-17".data "C".data (some 0) =
      "AAPL260117C00000000".data ∧
    "AAPL260117C00000000".data ≠ ([] : Str) := by
  constructor
  · with_unfolding_all rfl
  · decide

/-- C8 (amended): `buildOsiSymbol` fails (returns the empty string) when
the underlying, expiry or right is empty or the strike is non-finite;
it does NOT reject non-positive strikes: with valid components and any
finite strike — zero or negative included — it produces a symbol. -/
theorem c8_build_failure_modes :
    (∀ e r s, buildOsiSymbol [] e r s = []) ∧
    (∀ u r s, buildOsiSymbol u [] r s = []) ∧
    (∀ u e s, buildOsiSymbol u e [] s = []) ∧
    (∀ u e r, buildOsiSymbol u e r none = []) ∧
    (∀ u : Str, u ≠ [] → (∀ c ∈ u, isUpperAlnumChar c = true) →
      ∀ y1 y2 m1 m2 d1 d2 : Char,
        (∀ c ∈ [y1, y2, m1, m2, d1, d2], isDigitChar c = true) →
      ∀ r : Str, r ≠ [] → ∀ q : ℚ,
        buildOsiSymbol u ['2', '0', y1, y2, '-', m1, m2, '-', d1, d2] r
          (some q) ≠ []) := by
  refine ⟨?_, ?_, ?_, ?_, ?_⟩
  · intro e r s
    simp [buildOsiSymbol, trimStr, jsToUpper]
  · intro u r s
    simp [buildOsiSymbol, trimStr, jsToUpper]
  · intro u e s
    simp [buildOsiSymbol]
  · intro u e r
    simp [buildOsiSymbol]
  · intro u hu0 hu y1 y2 m1 m2 d1 d2 hdig r hr q
    rw [buildOsiSymbol_eq_parts u hu0 hu y1 y2 m1 m2 d1 d2 hdig r hr q]
    simp [hu0]

/-- Witness for C8: a negative strike is accepted and encoded. -/
theorem c8_build_failure_modes_witness :
    buildOsiSymbol "AAPL".data ['2', '0', '2', '6', '-', '0', '1', '-', '1',
      '7'] "C".data (some (-5)) ≠ [] :=
  c8_build_failure_modes.2.2.2.2 "AAPL".data (by decide) (by decide)
    '2' '6' '0' '1' '1' '7' (by decide) "C".data (by decide) (-5)

/-- C10: `buildOsiSymbol` encodes the right component as P only when the
right argument upper-cases to the single letter P; every other non-empty
right — including the full word PUT — is encoded as C, so the built
symbol parses back as a CALL. -/
theorem c10_right_letter_encoding
    (u : Str) (hu0 : u ≠ []) (hu6 : u.length ≤ 6)
    (hu : ∀ c ∈ u, isUpperAlnumChar c = true)
    (y1 y2 m1 m2 d1 d2 : Char)
    (hdig : ∀ c ∈ [y1, y2, m1, m2, d1, d2], isDigitChar c = true)
    (r : Str) (hr : r ≠ [])
    (q : ℚ) (hq : 0 < q) (hbound : jsRound (q * 1000) ≤ 99999999) :
    (parseOsiSymbol
        (buildOsiSymbol u ['2', '0', y1, y2, '-', m1, m2, '-', d1, d2] r
          (some q))).map OsiParsed.option_type =
      some (if jsToUpper r = ['P'] then "PUT".data else "CALL".data) := by
  rw [parse_build_roundtrip u hu0 hu6 hu y1 y2 m1 m2 d1 d2 hdig r hr q hq
    hbound]
  rfl

/-- A summary row in the expansion of one order entry comes only from a
group marker whose group has at least 2 legs, and carries that group's
strategy id. -/
theorem summary_mem_expandEntry (rows : List PositionRow)
    (col : Str → Bool) (e : PositionRow ⊕ Str) (s : StrategySummary)
    (h : DisplayRow.summary s ∈ expandEntry rows col e) :
    ∃ g', e = Sum.inr g' ∧ 2 ≤ (legsOf rows g').length ∧
      s.strategy_id = g' := by
  match e with
  | Sum.inl r => simp [expandEntry] at h
  | Sum.inr g' =>
    simp only [expandEntry] at h
    by_cases hlen : (legsOf rows g').length < 2
    · rw [if_pos hlen] at h
      exfalso
      rcases List.mem_map.mp h with ⟨r, _, habs⟩
      exact DisplayRow.noConfusion habs
    · rw [if_neg hlen] at h
      refine ⟨g', rfl, by omega, ?_⟩
      match hlegs : legsOf rows g' with
      | [] =>
        rw [hlegs] at h
        simp at h
      | l0 :: rest =>
        rw [hlegs] at h
        simp only [List.mem_cons] at h
        rcases h with h | h
        · have : s = buildSummary g' l0 (l0 :: rest) := by
            injection h
          subst this
          rfl
        · exfalso
          by_cases hcol : col g' = true
          · rw [if_pos hcol] at h
            simp at h
          · rw [if_neg hcol] at h
            rcases List.mem_map.mp h with ⟨r, _, habs⟩
            exact DisplayRow.noConfusion habs

/-- A strategy id with a leg among the rows and not yet seen gets a group
marker in the order list. -/
theorem inr_mem_orderEntries (g : Str) :
    ∀ (rows : List PositionRow) (seen : List Str),
      (∃ r ∈ rows, isGroupedLeg r = some g) → g ∉ seen →
      Sum.inr g ∈ orderEntries rows seen := by
  intro rows
  induction rows with
  | nil =>
    rintro seen ⟨r, hr, _⟩ _
    exact absurd hr (List.not_mem_nil r)
  | cons a t ih =>
    rintro seen ⟨r, hr, hleg⟩ hns
    cases hga : isGroupedLeg a with
    | some ga =>
      by_cases hseen : ga ∈ seen
      · simp only [orderEntries, hga]
        rw [if_pos hseen]
        rcases List.mem_cons.mp hr with rfl | hrt
        · rw [hga] at hleg
          injection hleg with hEq
          exact absurd (hEq ▸ hseen) hns
        · exact ih seen ⟨r, hrt, hleg⟩ hns
      · simp only [orderEntries, hga]
        rw [if_neg hseen]
        by_cases hgg : ga = g
        · subst hgg
          exact List.mem_cons_self _ _
        · refine List.mem_cons_of_mem _ (ih (ga :: seen) ⟨r, ?_, hleg⟩ ?_)
          · rcases List.mem_cons.mp hr with rfl | hrt
            · rw [hga] at hleg
              injection hleg with hEq
              exact absurd hEq hgg
            · exact hrt
          · intro hmem
            rcases List.mem_cons.mp hmem with hEq | hmem2
            · exact hgg hEq.symm
            · exact hns hmem2
    | none =>
      simp only [orderEntries, hga]
      rcases List.mem_cons.mp hr with rfl | hrt
      · rw [hga] at hleg
        exact Option.noConfusion hleg
      · exact List.mem_cons_of_mem _ (ih seen ⟨r, hrt, hleg⟩ hns)

theorem filteredPositions_nil (fil : Str) : filteredPositions fil [] = [] := by
  unfold filteredPositions
  split <;> rfl

/-- C5: a strategy group with fewer than 2 legs is never summarized: the
display list contains no synthetic summary row for that strategy id, and
each of the group's rows passes through as an ordinary row. -/
theorem c5_small_group_pass_through
    (positions : List PositionRow) (collapsed : Str → Bool) (fil g : Str)
    (hsmall : (legsOf (filteredPositions fil positions) g).length < 2) :
    (∀ s : StrategySummary,
        DisplayRow.summary s ∈ positionsDisplay positions collapsed fil →
        s.strategy_id ≠ g) ∧
    (∀ r ∈ legsOf (filteredPositions fil positions) g,
        DisplayRow.plain r ∈ positionsDisplay positions collapsed fil) := by
  constructor
  · intro s hs hgid
    unfold positionsDisplay at hs
    by_cases hpos : positions = []
    · rw [if_pos hpos] at hs
      exact absurd hs (List.not_mem_nil _)
    · rw [if_neg hpos] at hs
      by_cases hfil : filteredPositions fil positions = []
      · rw [if_pos hfil] at hs
        exact absurd hs (List.not_mem_nil _)
      · rw [if_neg hfil] at hs
        rcases List.mem_flatMap.mp hs with ⟨e, _, hmem⟩
        rcases summary_mem_expandEntry _ _ _ _ hmem with ⟨g', _, hlen2, hsid⟩
        rw [hgid] at hsid
        rw [← hsid] at hlen2
        omega
  · intro r hr
    have hrf := List.mem_filter.mp hr
    have hleg : isGroupedLeg r = some g := of_decide_eq_true hrf.2
    have hpos : positions ≠ [] := by
      intro hEq
      rw [hEq, filteredPositions_nil] at hr
      exact absurd hr (List.not_mem_nil r)
    have hfil : filteredPositions fil positions ≠ [] := by
      intro hEq
      rw [hEq] at hrf
      exact absurd hrf.1 (List.not_mem_nil r)
    unfold positionsDisplay
    rw [if_neg hpos, if_neg hfil]
    refine List.mem_flatMap.mpr ⟨Sum.inr g,
      inr_mem_orderEntries g _ [] ⟨r, hrf.1, hleg⟩ (List.not_mem_nil g), ?_⟩
    simp only [expandEntry]
    rw [if_pos hsmall]
    exact List.mem_map.mpr ⟨r, hr, rfl⟩

/-- Witness for C5: a single option leg with a populated strategy id is
not summarized and passes through. -/
theorem c5_small_group_pass_through_witness :
    (∀ s : StrategySummary,
        DisplayRow.summary s ∈ positionsDisplay
          [{ symbol := "X".data, asset_class := "OPTION".data,
             qty := some 1, price := some 5, avg_cost := none,
             multiplier := some 100, market_value := none,
             total_pnl := none, day_pnl := none,
             strategy_id := "G1".data, strategy := [],
             strategy_name := [] }] (fun _ => false) [] →
        s.strategy_id ≠ "G1".data) ∧
    (∀ r ∈ legsOf (filteredPositions []
        [{ symbol := "X".data, asset_class := "OPTION".data,
           qty := some 1, price := some 5, avg_cost := none,
           multiplier := some 100, market_value := none,
           total_pnl := none, day_pnl := none,
           strategy_id := "G1".data, strategy := [],
           strategy_name := [] }]) "G1".data,
        DisplayRow.plain r ∈ positionsDisplay
          [{ symbol := "X".data, asset_class := "OPTION".data,
             qty := some 1, price := some 5, avg_cost := none,
             multiplier := some 100, market_value := none,
             total_pnl := none, day_pnl := none,
             strategy_id := "G1".data, strategy := [],
             strategy_name := [] }] (fun _ => false) []) :=
  c5_small_group_pass_through _ (fun _ => false) [] "G1".data (by decide)

/-- C3: netting a 2-leg option strategy group — leg 1 quantity +1 at price
5, leg 2 quantity −1 at price 2, both multiplier 100 — yields a summary
row with units 1, net price 3 = (1·5·100 − 1·2·100)/(1·100), and side
LONG because the net notional 300 is not negative; in general the side
label is SHORT exactly when the net notional is negative. -/
theorem c3_two_leg_netting
    (l1 l2 : PositionRow) (g : Str) (hg : g ≠ [])
    (ha1 : jsToLower l1.asset_class = "option".data)
    (ha2 : jsToLower l2.asset_class = "option".data)
    (hs1 : l1.strategy_id = g) (hs2 : l2.strategy_id = g)
    (hq1 : l1.qty = some 1) (hq2 : l2.qty = some (-1))
    (hp1 : l1.price = some 5) (hp2 : l2.price = some 2)
    (hm1 : l1.multiplier = some 100) (hm2 : l2.multiplier = some 100)
    (collapsed : Str → Bool) :
    positionsDisplay [l1, l2] collapsed [] =
      DisplayRow.summary (buildSummary g l1 [l1, l2]) ::
        (if collapsed g then []
         else
           [DisplayRow.leg l1 g (buildSummary g l1 [l1, l2]).strategy_name,
            DisplayRow.leg l2 g
              (buildSummary g l1 [l1, l2]).strategy_name]) ∧
    (buildSummary g l1 [l1, l2]).qty = some 1 ∧
    (buildSummary g l1 [l1, l2]).price = 3 ∧
    (buildSummary g l1 [l1, l2]).position_side = "LONG".data ∧
    netNotionalOf [l1, l2] = 300 ∧
    ∀ (g' : Str) (l0 : PositionRow) (legs : List PositionRow),
      ((buildSummary g' l0 legs).position_side = "SHORT".data ↔
        netNotionalOf legs < 0) := by
  have hid1 : strategyIdOf l1 = g := by
    simp [strategyIdOf, jsStrOr, hs1, hg]
  have hid2 : strategyIdOf l2 = g := by
    simp [strategyIdOf, jsStrOr, hs2, hg]
  have hgl1 : isGroupedLeg l1 = some g := by
    simp [isGroupedLeg, hid1, ha1, hg]
  have hgl2 : isGroupedLeg l2 = some g := by
    simp [isGroupedLeg, hid2, ha2, hg]
  have hlegs : legsOf [l1, l2] g = [l1, l2] := by
    simp [legsOf, hgl1, hgl2]
  have horder : orderEntries [l1, l2] [] = [Sum.inr g] := by
    simp [orderEntries, hgl1, hgl2]
  have hunits : unitsOf [l1, l2] = some 1 := by
    norm_num [unitsOf, jsNum, hq1, hq2, List.min?]
  have hbase : baseMultiplierOf [l1, l2] = 100 := by
    norm_num [baseMultiplierOf, hm1]
  have hnet : netNotionalOf [l1, l2] = 300 := by
    norm_num [netNotionalOf, effPriceOf, multOf, jsNum, hbase, hq1, hq2,
      hp1, hp2, hm1, hm2]
  have hsideGen : ∀ (g' : Str) (l0 : PositionRow)
      (legs : List PositionRow),
      ((buildSummary g' l0 legs).position_side = "SHORT".data ↔
        netNotionalOf legs < 0) := by
    intro g' l0 legs
    by_cases h : netNotionalOf legs < 0 <;> simp [buildSummary, h]
  refine ⟨?_, ?_, ?_, ?_, hnet, hsideGen⟩
  · unfold positionsDisplay
    rw [if_neg (by simp)]
    have hfp : filteredPositions [] [l1, l2] = [l1, l2] := rfl
    rw [hfp, if_neg (by simp), horder]
    simp only [List.flatMap_cons, List.flatMap_nil, List.append_nil]
    simp only [expandEntry]
    rw [hlegs]
    norm_num
  · simp [buildSummary, hunits]
  · simp only [buildSummary, hunits, hbase, hnet]
    norm_num
  · simp only [buildSummary, hnet]
    norm_num

/-- Witness for C3 on the two concrete legs. -/
theorem c3_two_leg_netting_witness :
    (buildSummary "G".data exLegBuy [exLegBuy, exLegSell]).qty = some 1 ∧
    (buildSummary "G".data exLegBuy [exLegBuy, exLegSell]).price = 3 ∧
    (buildSummary "G".data exLegBuy
      [exLegBuy, exLegSell]).position_side = "LONG".data :=
  have h := c3_two_leg_netting exLegBuy exLegSell "G".data (by decide)
    (by decide) (by decide) rfl rfl rfl rfl rfl rfl rfl rfl fun _ => false
  ⟨h.2.1, h.2.2.1, h.2.2.2.1⟩

/-- Witness for C10: right given as the word PUT produces a CALL symbol. -/
theorem c10_right_letter_encoding_witness :
    (parseOsiSymbol
        (buildOsiSymbol "AAPL".data ['2', '0', '2', '6', '-', '0', '1', '-',
          '1', '7'] "PUT".data (some 150))).map OsiParsed.option_type =
      some (if jsToUpper "PUT".data = ['P'] then "PUT".data
        else "CALL".data) ∧
    (if jsToUpper "PUT".data = ['P'] then "PUT".data else "CALL".data) =
      "CALL".data := by
  constructor
  · exact c10_right_letter_encoding "AAPL".data (by decide) (by decide)
      (by decide) '2' '6' '0' '1' '1' '7' (by decide) "PUT".data (by decide)
      150 (by norm_num)
      (by rw [show jsRound ((150 : ℚ) * 1000) = 150000 from by
            with_unfolding_all rfl]
          norm_num)
  · decide

/-- C2 counterexample: a file whose header row satisfies the
transactions predicate (action, amount, quantity, a "fees" column) while
a scanned cell carries the balances marker phrase is imported as a
balances report, not as a transactions report. -/
theorem c2_detection_order_counterexample :
    transactionsHeaderPred (headerRowOf (parseCsvRows
      "action,amount,quantity,fees,balances for all accounts".data)) =
      true ∧
    detectImportKind (parseCsvRows
      "action,amount,quantity,fees,balances for all accounts".data) =
      ImportKind.balances ∧
    ImportKind.balances ≠ ImportKind.transactions := by
  refine ⟨by decide, by decide, by decide⟩

/-- C2 (amended): format detection applies the detectors in the order
balances report, positions report, transactions report, account
statement, generic fallback — first match wins.  In particular a file
whose header satisfies the transactions predicate is classified as a
transactions report exactly when no balances and no positions marker
appears in the scanned rows. -/
theorem c2_detection_order (rawRows : List (List Str)) :
    (detectImportKind rawRows = ImportKind.balances ↔
      balancesPred (firstRowsOf rawRows) = true) ∧
    (detectImportKind rawRows = ImportKind.positionsReport ↔
      balancesPred (firstRowsOf rawRows) = false ∧
      positionsReportPred (firstRowsOf rawRows) = true) ∧
    (detectImportKind rawRows = ImportKind.transactions ↔
      balancesPred (firstRowsOf rawRows) = false ∧
      positionsReportPred (firstRowsOf rawRows) = false ∧
      transactionsHeaderPred (headerRowOf rawRows) = true) ∧
    (detectImportKind rawRows = ImportKind.accountStatement ↔
      balancesPred (firstRowsOf rawRows) = false ∧
      positionsReportPred (firstRowsOf rawRows) = false ∧
      transactionsHeaderPred (headerRowOf rawRows) = false ∧
      accountStatementPred (firstRowsOf rawRows) = true) ∧
    (detectImportKind rawRows = ImportKind.generic ↔
      balancesPred (firstRowsOf rawRows) = false ∧
      positionsReportPred (firstRowsOf rawRows) = false ∧
      transactionsHeaderPred (headerRowOf rawRows) = false ∧
      accountStatementPred (firstRowsOf rawRows) = false) := by
  by_cases hb : balancesPred (firstRowsOf rawRows) <;>
    by_cases hp : positionsReportPred (firstRowsOf rawRows) <;>
      by_cases ht : transactionsHeaderPred (headerRowOf rawRows) <;>
        by_cases hs : accountStatementPred (firstRowsOf rawRows) <;>
          simp [detectImportKind, hb, hp, ht, hs]

/-- C4: the NAV snapshot write path stores bench as NULL unless the
caller supplies a strictly positive benchmark level, and never
substitutes the nav value for a missing bench. -/
theorem c4_bench_null_preserved (account date : Str) (nav : ℚ) :
    (store_nav_snapshot account date nav none).bench = none ∧
    (∀ b : ℚ, b ≤ 0 →
      (store_nav_snapshot account date nav (some b)).bench = none) ∧
    (∀ b : ℚ, 0 < b →
      (store_nav_snapshot account date nav (some b)).bench = some b) ∧
    (∀ (bench : Option ℚ) (b : ℚ),
      (store_nav_snapshot account date nav bench).bench = some b →
      bench = some b ∧ 0 < b) ∧
    (store_nav_snapshot account date nav none).bench ≠ some nav := by
  refine ⟨rfl, ?_, ?_, ?_, by simp [store_nav_snapshot]⟩
  · intro b hb
    simp [store_nav_snapshot, not_lt.mpr hb]
  · intro b hb
    simp [store_nav_snapshot, hb]
  · intro bench b h
    match bench with
    | none => simp [store_nav_snapshot] at h
    | some b0 =>
      simp only [store_nav_snapshot] at h
      by_cases h0 : 0 < b0
      · rw [if_pos h0] at h
        injection h with hEq
        exact ⟨by rw [hEq], hEq ▸ h0⟩
      · rw [if_neg h0] at h
        exact Option.noConfusion h

/-- Witness for C4: missing bench stays NULL, zero bench stays NULL, a
positive bench is stored as supplied. -/
theorem c4_bench_null_preserved_witness :
    (store_nav_snapshot "ACCT".data "2025-06-30".data 100 none).bench =
      none ∧
    (store_nav_snapshot "ACCT".data "2025-06-30".data 100
      (some 0)).bench = none ∧
    (store_nav_snapshot "ACCT".data "2025-06-30".data 100
      (some 50)).bench = some 50 :=
  have h := c4_bench_null_preserved "ACCT".data "2025-06-30".data 100
  ⟨h.1, h.2.1 0 le_rfl, h.2.2.1 50 (by norm_num)⟩

/-- C7 evaluation: parsing option descriptions with and without an
explicit underlying.  "3 AAPL 01/17/2026 150 CALL" parses (underlying in
the text, no fallback needed).  But for "3 01/17/2026 150 CALL" — the
claim's own fallback example — the parse does NOT return null without a
fallback and does NOT use a supplied fallback: the greedy `[A-Z0-9]{1,6}`
underlying group absorbs the leading quantity digit after the optional
quantity prefix backtracks to empty, so the description parses with
underlying "3".  Only a description with no leading quantity (for
example "01/17/2026 150 CALL") behaves as the claim describes. -/
theorem c7_option_description_behavior :
    parseOptionDescription "3 AAPL 01/17/2026 150 CALL".data [] =
      some { symbol := "AAPL260117C00150000".data
             underlying := "AAPL".data
             expiry := "2026-01-17".data
             strike := 150
             option_type := "CALL".data } ∧
    parseOptionDescription "3 01/17/2026 150 CALL".data [] =
      some { symbol := "3260117C00150000".data
             underlying := "3".data
             expiry := "2026-01-17".data
             strike := 150
             option_type := "CALL".data } ∧
    parseOptionDescription "3 01/17/2026 150 CALL".data "AAPL".data =
      some { symbol := "3260117C00150000".data
             underlying := "3".data
             expiry := "2026-01-17".data
             strike := 150
             option_type := "CALL".data } ∧
    parseOptionDescription "01/17/2026 150 CALL".data [] = none ∧
    parseOptionDescription "01/17/2026 150 CALL".data "AAPL".data =
      some { symbol := "AAPL260117C00150000".data
             underlying := "AAPL".data
             expiry := "2026-01-17".data
             strike := 150
             option_type := "CALL".data } := by
  refine ⟨?_, ?_, ?_, ?_, ?_⟩ <;> with_unfolding_all rfl

theorem requireAccount_all : requireAccount "ALL".data = none := by
  simp [requireAccount]

/-- Exhaustive case analysis of `importCsvFile`'s result, with the
payload facts carried by the request/error constructors. -/
theorem importCsvFile_cases (acct text : Str) :
    importCsvFile acct text = CsvImportAction.emptyError ∨
    importCsvFile acct text = CsvImportAction.balancesRequest ∨
    (∃ a, importCsvFile acct text = CsvImportAction.scopeError a) ∨
    (∃ a, importCsvFile acct text =
      CsvImportAction.positionsReportRequest a) ∨
    (∃ a, importCsvFile acct text = CsvImportAction.transactionsRequest a) ∨
    (importCsvFile acct text = CsvImportAction.statementNoRowsError ∧
      (parseAccountStatementPositions (parseCsvRows text)).filter
        goodStmtRow = []) ∨
    (∃ a, importCsvFile acct text = CsvImportAction.statementBulkRequest a
        ((parseAccountStatementPositions (parseCsvRows text)).filter
          goodStmtRow) ∧
      (parseAccountStatementPositions (parseCsvRows text)).filter
        goodStmtRow ≠ []) ∨
    importCsvFile acct text = CsvImportAction.parsedEmptyError ∨
    (importCsvFile acct text = CsvImportAction.genericNoRowsError ∧
      ((parseCsv text).map buildPayloadRow).filter goodPayloadRow = []) ∨
    (∃ a, importCsvFile acct text = CsvImportAction.genericBulkRequest a
        (((parseCsv text).map buildPayloadRow).filter goodPayloadRow) ∧
      ((parseCsv text).map buildPayloadRow).filter goodPayloadRow ≠ []) := by
  simp only [importCsvFile]
  by_cases hrr : parseCsvRows text = []
  · rw [if_pos hrr]
    exact Or.inl rfl
  · rw [if_neg hrr]
    cases hdk : detectImportKind (parseCsvRows text)
    · exact Or.inr (Or.inl rfl)
    · match hra : requireAccount acct with
      | none => exact Or.inr (Or.inr (Or.inl ⟨_, rfl⟩))
      | some a =>
        exact Or.inr (Or.inr (Or.inr (Or.inl ⟨a, rfl⟩)))
    · match hra : requireAccount acct with
      | none => exact Or.inr (Or.inr (Or.inl ⟨_, rfl⟩))
      | some a =>
        exact Or.inr (Or.inr (Or.inr (Or.inr (Or.inl ⟨a, rfl⟩))))
    · match hra : requireAccount acct with
      | none => exact Or.inr (Or.inr (Or.inl ⟨_, rfl⟩))
      | some a =>
        by_cases hf : (parseAccountStatementPositions
            (parseCsvRows text)).filter goodStmtRow = []
        · refine Or.inr (Or.inr (Or.inr (Or.inr (Or.inr (Or.inl
            ⟨?_, hf⟩)))))
          show statementImportAction a (parseCsvRows text) = _
          simp only [statementImportAction]
          rw [if_pos hf]
        · refine Or.inr (Or.inr (Or.inr (Or.inr (Or.inr (Or.inr (Or.inl
            ⟨a, ?_, hf⟩))))))
          show statementImportAction a (parseCsvRows text) = _
          simp only [statementImportAction]
          rw [if_neg hf]
    · by_cases h1 : parseCsv text = []
      · refine Or.inr (Or.inr (Or.inr (Or.inr (Or.inr (Or.inr (Or.inr
          (Or.inl ?_)))))))
        simp only [genericImportAction]
        rw [if_pos h1]
      · by_cases h2 : ((parseCsv text).map buildPayloadRow).filter
            goodPayloadRow = []
        · refine Or.inr (Or.inr (Or.inr (Or.inr (Or.inr (Or.inr (Or.inr
            (Or.inr (Or.inl ⟨?_, h2⟩))))))))
          simp only [genericImportAction]
          rw [if_neg h1, if_pos h2]
        · match hra : requireAccount acct with
          | none =>
            refine Or.inr (Or.inr (Or.inl ⟨"import positions CSV".data,
              ?_⟩))
            simp only [genericImportAction]
            rw [if_neg h1, if_neg h2, hra]
          | some a =>
            refine Or.inr (Or.inr (Or.inr (Or.inr (Or.inr (Or.inr (Or.inr
              (Or.inr (Or.inr ⟨a, ?_, h2⟩))))))))
            simp only [genericImportAction]
            rw [if_neg h1, if_neg h2, hra]

/-- C6: row-level recovery.  Every position payload the import submits
(statement or generic path) contains only rows with a non-empty symbol
and a nonzero (hence finite) quantity and is non-empty; the
zero-usable-rows errors occur exactly when the filtered payload is
empty, so a bad row never aborts an import that still has usable
rows. -/
theorem c6_row_level_recovery :
    (∀ acct text account ps,
      importCsvFile acct text =
        CsvImportAction.genericBulkRequest account ps →
      ps ≠ [] ∧ ∀ r ∈ ps, r.symbol ≠ [] ∧ r.qty ≠ 0) ∧
    (∀ acct text account ps,
      importCsvFile acct text =
        CsvImportAction.statementBulkRequest account ps →
      ps ≠ [] ∧ ∀ r ∈ ps, r.symbol ≠ [] ∧ r.qty ≠ 0) ∧
    (∀ acct text,
      importCsvFile acct text = CsvImportAction.genericNoRowsError →
      ((parseCsv text).map buildPayloadRow).filter goodPayloadRow = []) ∧
    (∀ acct text,
      importCsvFile acct text = CsvImportAction.statementNoRowsError →
      (parseAccountStatementPositions (parseCsvRows text)).filter
        goodStmtRow = []) := by
  refine ⟨?_, ?_, ?_, ?_⟩
  · intro acct text account ps h
    rcases importCsvFile_cases acct text with
      h1 | h1 | ⟨a, h1⟩ | ⟨a, h1⟩ | ⟨a, h1⟩ | ⟨h1, _⟩ | ⟨a, h1, _⟩ | h1 |
      ⟨h1, _⟩ | ⟨a, h1, hne⟩ <;> rw [h] at h1 <;>
      try exact CsvImportAction.noConfusion h1
    injection h1 with ha hps
    subst hps
    refine ⟨hne, ?_⟩
    intro r hr
    have := (List.mem_filter.mp hr).2
    exact of_decide_eq_true this
  · intro acct text account ps h
    rcases importCsvFile_cases acct text with
      h1 | h1 | ⟨a, h1⟩ | ⟨a, h1⟩ | ⟨a, h1⟩ | ⟨h1, _⟩ | ⟨a, h1, hne⟩ | h1 |
      ⟨h1, _⟩ | ⟨a, h1, _⟩ <;> rw [h] at h1 <;>
      try exact CsvImportAction.noConfusion h1
    injection h1 with ha hps
    subst hps
    refine ⟨hne, ?_⟩
    intro r hr
    have := (List.mem_filter.mp hr).2
    exact of_decide_eq_true this
  · intro acct text h
    rcases importCsvFile_cases acct text with
      h1 | h1 | ⟨a, h1⟩ | ⟨a, h1⟩ | ⟨a, h1⟩ | ⟨h1, _⟩ | ⟨a, h1, _⟩ | h1 |
      ⟨h1, hfe⟩ | ⟨a, h1, _⟩ <;> rw [h] at h1 <;>
      try exact CsvImportAction.noConfusion h1
    exact hfe
  · intro acct text h
    rcases importCsvFile_cases acct text with
      h1 | h1 | ⟨a, h1⟩ | ⟨a, h1⟩ | ⟨a, h1⟩ | ⟨h1, hfe⟩ | ⟨a, h1, _⟩ | h1 |
      ⟨h1, _⟩ | ⟨a, h1, _⟩ <;> rw [h] at h1 <;>
      try exact CsvImportAction.noConfusion h1
    exact hfe

/-- C9: with the ambiguous "ALL" account scope, no account-scoped
mutating import ever issues its request: the positions-report,
transactions and account-statement branches stop with a scope error, the
generic branch stops with a scope error or an earlier row-validation
error, and the NAV-history paste stops with a scope error; the balances
import, which needs no single-account scope, proceeds to its request. -/
theorem c9_all_scope_rejected (text : Str) :
    isAccountScopedRequest (importCsvFile "ALL".data text) = false ∧
    (parseCsvRows text ≠ [] →
      detectImportKind (parseCsvRows text) = ImportKind.positionsReport →
      importCsvFile "ALL".data text =
        CsvImportAction.scopeError "import positions CSV".data) ∧
    (parseCsvRows text ≠ [] →
      detectImportKind (parseCsvRows text) = ImportKind.transactions →
      importCsvFile "ALL".data text =
        CsvImportAction.scopeError "import transactions CSV".data) ∧
    (parseCsvRows text ≠ [] →
      detectImportKind (parseCsvRows text) = ImportKind.accountStatement →
      importCsvFile "ALL".data text = CsvImportAction.scopeError
        "import positions from account statement".data) ∧
    (parseCsvRows text ≠ [] →
      detectImportKind (parseCsvRows text) = ImportKind.balances →
      importCsvFile "ALL".data text = CsvImportAction.balancesRequest) ∧
    importNavText "ALL".data text = NavImportAction.scopeError := by
  have hgen : ∀ t : Str, isAccountScopedRequest
      (genericImportAction "ALL".data t) = false := by
    intro t
    simp only [genericImportAction]
    by_cases h1 : parseCsv t = []
    · rw [if_pos h1]
      rfl
    · rw [if_neg h1]
      by_cases h2 : ((parseCsv t).map buildPayloadRow).filter
          goodPayloadRow = []
      · rw [if_pos h2]
        rfl
      · rw [if_neg h2, requireAccount_all]
        rfl
  refine ⟨?_, ?_, ?_, ?_, ?_, ?_⟩
  · simp only [importCsvFile]
    by_cases hrr : parseCsvRows text = []
    · rw [if_pos hrr]
      rfl
    · rw [if_neg hrr]
      cases hdk : detectImportKind (parseCsvRows text)
      · rfl
      · rw [requireAccount_all]
        rfl
      · rw [requireAccount_all]
        rfl
      · rw [requireAccount_all]
        rfl
      · exact hgen text
  · intro hrr hdk
    simp only [importCsvFile]
    rw [if_neg hrr, hdk, requireAccount_all]
  · intro hrr hdk
    simp only [importCsvFile]
    rw [if_neg hrr, hdk, requireAccount_all]
  · intro hrr hdk
    simp only [importCsvFile]
    rw [if_neg hrr, hdk, requireAccount_all]
  · intro hrr hdk
    simp only [importCsvFile]
    rw [if_neg hrr, hdk]
  · simp only [importNavText]
    rw [requireAccount_all]

/-- Witness for C9: a positions-report file and a NAV paste, both under
the ALL scope, are refused. -/
theorem c9_all_scope_rejected_witness :
    importCsvFile "ALL".data "positions for ACC1\nsymbol,qty".data =
      CsvImportAction.scopeError "import positions CSV".data ∧
    importNavText "ALL".data "2025-01-01, 100".data =
      NavImportAction.scopeError :=
  ⟨(c9_all_scope_rejected "positions for ACC1\nsymbol,qty".data).2.1
      (by decide) (by decide),
   (c9_all_scope_rejected "2025-01-01, 100".data).2.2.2.2.2⟩

/-- Witness for C6: on the concrete file, the import submits exactly the
filtered payload, which is non-empty and contains only rows with a
symbol and a nonzero quantity. -/
theorem c6_row_level_recovery_witness :
    importCsvFile "ACC1".data c6ExText =
      CsvImportAction.genericBulkRequest "ACC1".data
        (((parseCsv c6ExText).map buildPayloadRow).filter
          goodPayloadRow) ∧
    ((parseCsv c6ExText).map buildPayloadRow).filter goodPayloadRow ≠
      [] ∧
    ∀ r ∈ ((parseCsv c6ExText).map buildPayloadRow).filter
      goodPayloadRow, r.symbol ≠ [] ∧ r.qty ≠ 0 :=
  have hEq : importCsvFile "ACC1".data c6ExText =
      CsvImportAction.genericBulkRequest "ACC1".data
        (((parseCsv c6ExText).map buildPayloadRow).filter
          goodPayloadRow) := by
    with_unfolding_all rfl
  ⟨hEq, c6_row_level_recovery.1 "ACC1".data c6ExText "ACC1".data _ hEq⟩

end Barker
